import Mathlib

set_option autoImplicit false

/-!
# Verification of the EventStreamML structured generative output layer

This file gives a shallow embedding of the core of
`src/EventStream/EventStreamTransformer/model.py`
(`StructuredEventStreamGenerativeOutputLayer`) and of the configuration
validation in `src/EventStream/EventStreamTransformer/config.py`
(`StructuredEventStreamTransformerConfig.__init__`), and proves or refutes
the frozen claims about them.

Modelling conventions:

* Floating point tensors are modelled pointwise by the type `Val`,
  an exact rational extended with `+inf`, `-inf` and `nan`, with the
  IEEE-754 rules for the arithmetic the source performs (in particular
  `inf - inf = nan`, `inf * 0 = nan`, `x + nan = nan`).  The source code
  explicitly checks `isnan`, so a value type with `nan` is required.
* Tensors of shape `[B,S]`, `[B,S,K]`, `[B,S,H]`, `[B,S,L,H]` are total
  functions out of `Fin` types.
* Python dictionaries keyed by measurement names are association lists
  `List (String × _)` in insertion order; `dict.update` is `dictUpdate`
  below (replace in place, append fresh keys).
* Code of this repository that is *not* under `src/`
  (`utils.safe_weighted_avg`, `utils.weighted_loss`, the TTE layers and the
  indexed Gaussian regression layer of `generative_layers.py`, the loss
  criteria taken from the torch library) is either modelled from the spec
  (the two masked averages) or kept as an opaque-to-the-claims parameter
  bundled in the `Heads` structure: the claims under study concern routing,
  masking, shapes and aggregation, never the numeric value of a kernel.
-/

/-- Exact rational addition, written on the kernel-reducible primitive
`mkRat` so that concrete runs of the embedding evaluate inside `decide` /
`rfl` proofs; `qadd_eq` below shows it is the field addition of `ℚ`. -/
def qadd (a b : ℚ) : ℚ := mkRat (a.num * b.den + b.num * a.den) (a.den * b.den)

/-- Exact rational multiplication on `mkRat`; equals `a * b` (`qmul_eq`). -/
def qmul (a b : ℚ) : ℚ := mkRat (a.num * b.num) (a.den * b.den)

/-- Exact rational negation on `mkRat`; equals `-a` (`qneg_eq`). -/
def qneg (a : ℚ) : ℚ := mkRat (-a.num) a.den

/-- Exact rational division on `Rat.divInt`; equals `a / b` (`qdiv_eq`). -/
def qdiv (a b : ℚ) : ℚ := Rat.divInt (a.num * b.den) (a.den * b.num)

theorem qadd_eq (a b : ℚ) : qadd a b = a + b := (Rat.add_def' a b).symm

theorem qneg_eq (a : ℚ) : qneg a = -a := by
  rw [qneg, ← Rat.neg_mkRat, Rat.mkRat_self]

theorem qmul_eq (a b : ℚ) : qmul a b = a * b := by
  conv_rhs => rw [← Rat.mkRat_self a, ← Rat.mkRat_self b, Rat.mkRat_mul_mkRat]
  rfl

theorem qdiv_eq (a b : ℚ) : qdiv a b = a / b := (Rat.div_def' a b).symm

/-- The strict order of `ℚ` is the boolean comparison `Rat.blt` of its
core `LT` instance. -/
theorem qblt_iff (a b : ℚ) : Rat.blt a b = true ↔ a < b := Iff.rfl

/-- A rational is zero iff its normalized numerator is zero. -/
theorem qnum_eq_zero (a : ℚ) : (a.num = 0) ↔ a = 0 := Rat.num_eq_zero

/-- An IEEE-754-style scalar: an exact rational, `+inf`, `-inf`, or `nan`.
Models the values a float32/float64 tensor element can take, with exact
(rather than rounded) finite arithmetic.  The finite arithmetic is
written on the kernel-reducible rational primitives `qadd`, `qmul`,
`qneg`, `qdiv` and the boolean order `Rat.blt` (each provably equal to
the corresponding `ℚ` field operation, see the lemmas above), so that
witnesses evaluate. -/
inductive Val where
  | fin (q : ℚ)
  | pinf
  | ninf
  | nan
deriving DecidableEq

namespace Val

/-- `torch.isnan`, pointwise. -/
def isnan : Val → Bool
  | nan => true
  | _ => false

/-- `torch.isfinite`, pointwise. -/
def isFinite : Val → Bool
  | fin _ => true
  | _ => false

/-- IEEE negation. -/
def neg : Val → Val
  | fin q => fin (qneg q)
  | pinf => ninf
  | ninf => pinf
  | nan => nan

/-- IEEE addition: `nan` absorbs, `inf + (-inf) = nan`. -/
def add : Val → Val → Val
  | nan, _ => nan
  | _, nan => nan
  | fin a, fin b => fin (qadd a b)
  | fin _, pinf => pinf
  | fin _, ninf => ninf
  | pinf, fin _ => pinf
  | ninf, fin _ => ninf
  | pinf, pinf => pinf
  | ninf, ninf => ninf
  | pinf, ninf => nan
  | ninf, pinf => nan

/-- IEEE subtraction, as `a + (-b)`. -/
def sub (a b : Val) : Val := add a (neg b)

/-- IEEE multiplication: `nan` absorbs, `inf * 0 = nan`. -/
def mul : Val → Val → Val
  | nan, _ => nan
  | _, nan => nan
  | fin a, fin b => fin (qmul a b)
  | fin a, pinf => if Rat.blt 0 a then pinf else if Rat.blt a 0 then ninf else nan
  | fin a, ninf => if Rat.blt 0 a then ninf else if Rat.blt a 0 then pinf else nan
  | pinf, fin b => if Rat.blt 0 b then pinf else if Rat.blt b 0 then ninf else nan
  | ninf, fin b => if Rat.blt 0 b then ninf else if Rat.blt b 0 then pinf else nan
  | pinf, pinf => pinf
  | ninf, ninf => pinf
  | pinf, ninf => ninf
  | ninf, pinf => ninf

/-- IEEE division (zeros unsigned, treated as `+0`): `x/0` is `±inf` for
finite nonzero `x`, `0/0 = nan`, `inf/inf = nan`, `x/inf = 0`. -/
def div : Val → Val → Val
  | nan, _ => nan
  | _, nan => nan
  | fin a, fin b =>
    if b.num = 0 then (if a.num = 0 then nan else if Rat.blt 0 a then pinf else ninf)
    else fin (qdiv a b)
  | fin _, pinf => fin 0
  | fin _, ninf => fin 0
  | pinf, fin b => if Rat.blt b 0 then ninf else pinf
  | ninf, fin b => if Rat.blt b 0 then pinf else ninf
  | pinf, _ => nan
  | ninf, _ => nan

/-- `mask.float()`, pointwise: `True ↦ 1.0`, `False ↦ 0.0`. -/
def ofBool (b : Bool) : Val := fin (if b then 1 else 0)

end Val

/-- Left-to-right sum with initial value `0.0`: models both Python's
`sum(...)` over dictionary values and torch's `.sum(-1)` reduction of a
row extracted as a list. -/
def vsum (l : List Val) : Val := l.foldl Val.add (Val.fin 0)

/-- torch `.mean()` of a row: sum divided by length (mean of an empty row
is `0/0 = nan`, as in torch). -/
def vmean (l : List Val) : Val := (vsum l).div (Val.fin l.length)

/-- The row `[f 0, ..., f (n-1)]` of a tensor dimension. -/
def finRow {n : ℕ} (f : Fin n → Val) : List Val := (List.finRange n).map f

/-- The boolean row `[m 0, ..., m (n-1)]` of a mask dimension. -/
def finRowB {n : ℕ} (m : Fin n → Bool) : List Bool := (List.finRange n).map m

/-- Number of `True` entries of a mask row: `mask.float().sum(-1)` as a
natural number. -/
def maskCount (m : List Bool) : ℕ := (m.filter id).length

/-- `(x * mask.float()).sum(-1)` for one row (IEEE semantics: an infinite
entry at a masked-out position contributes `inf * 0 = nan`). -/
def maskedSum (x : List Val) (m : List Bool) : Val :=
  vsum (List.zipWith (fun v b => v.mul (Val.ofBool b)) x m)

/-- Modelled from the spec: `utils.safe_weighted_avg` (the file
`EventStreamTransformer/utils.py` is not under `src/`).  Per the spec
(§4.3, §8.2) the masked average short-circuits an all-`False` mask to
exactly `0` instead of dividing by zero. Returns the average only; the
denominator the source also returns is `maskCount`. -/
def safeAvg (x : List Val) (m : List Bool) : Val :=
  if maskCount m = 0 then Val.fin 0 else (maskedSum x m).div (Val.fin (maskCount m))

/-- Modelled from the spec: `utils.weighted_loss` (the file
`EventStreamTransformer/utils.py` is not under `src/`).  Per the spec
(§4.3): the per-event loss is safely averaged over the mask within each
sequence, then macro-averaged over the batch. -/
def weighted_loss {B S : ℕ} (loss_per_event : Fin B → Fin S → Val)
    (mask : Fin B → Fin S → Bool) : Val :=
  vmean ((List.finRange B).map fun b => safeAvg (finRow (loss_per_event b)) (finRowB (mask b)))

/-- `find?`-based lookup in an association list (first match wins, as in a
Python dict read). -/
def lookupA {α : Type} (l : List (String × α)) (k : String) : Option α :=
  (l.find? (fun p => p.1 = k)).map Prod.snd

/-- Dictionary read with a default.  Python raises `KeyError` on a missing
key; no claim under study exercises a missing key, and the default is
chosen per use site to make the surrounding code total. -/
def lookupD {α : Type} (l : List (String × α)) (k : String) (d : α) : α :=
  (lookupA l k).getD d

/-- The key list of an association list. -/
def keysA {α : Type} (l : List (String × α)) : List String := l.map Prod.fst

/-- One step of Python `dict.update`: if the key is present, overwrite the
value in place (keeping its position); otherwise append. -/
def updateOne {α : Type} (d : List (String × α)) (k : String) (v : α) : List (String × α) :=
  if (lookupA d k).isSome then d.map (fun q => if q.1 = k then (k, v) else q) else d ++ [(k, v)]

/-- Python `d.update(new)` for dictionaries represented as association
lists. -/
def dictUpdate {α : Type} (d new : List (String × α)) : List (String × α) :=
  new.foldl (fun acc p => updateOne acc p.1 p.2) d

/-! ## Configuration (`config.py`) -/

/-- `DataModality` members used by the output layer
(`EventStreamData/types.py` is outside the modelled core; only these three
members are ever read by `model.py`). -/
inductive DataModality where
  | single_label_classification
  | multi_label_classification
  | multivariate_regression
deriving DecidableEq

/-- `MeasIndexGroupOptions` from `data_embedding_layer.py`. -/
inductive MeasIndexGroupOptions where
  | categorical_and_numerical
  | categorical_only
  | numerical_only
deriving DecidableEq

/-- One entry of a dependency-graph level:
`MEAS_INDEX_GROUP_T = Union[str, Tuple[str, MeasIndexGroupOptions]]`. -/
inductive MeasEntry where
  | plain (name : String)
  | pair (name : String) (mode : MeasIndexGroupOptions)
deriving DecidableEq

/-- `StructuredEventProcessingMode`. -/
inductive StructuredEventProcessingMode where
  | conditionally_independent
  | nested_attention
deriving DecidableEq

/-- `TimeToEventGenerationHeadType`. -/
inductive TimeToEventGenerationHeadType where
  | exponential
  | log_normal_mixture
deriving DecidableEq

/-- The arguments of `StructuredEventStreamTransformerConfig.__init__`
that participate in its validation logic or are read by the output layer.
Defaults are those of the Python signature. -/
structure ConfigArgs where
  vocab_sizes_by_measurement : Option (List (String × ℕ)) := none
  vocab_offsets_by_measurement : Option (List (String × ℤ)) := none
  measurements_idxmap : Option (List (String × ℤ)) := none
  measurements_per_generative_mode : Option (DataModality → List String) := none
  event_types_per_measurement : Option (List (String × List String)) := none
  event_types_idxmap : Option (List (String × ℤ)) := none
  measurements_per_dep_graph_level : Option (List (List MeasEntry)) := none
  categorical_embedding_dim : Option ℤ := none
  numerical_embedding_dim : Option ℤ := none
  structured_event_processing_mode : StructuredEventProcessingMode :=
    StructuredEventProcessingMode.nested_attention
  hidden_size : Option ℤ := some 256
  head_dim : Option ℤ := some 64
  num_hidden_layers : ℤ := 2
  num_attention_heads : ℤ := 4
  seq_attention_types : Option (List (List String × ℤ)) := none
  dep_graph_attention_types : Option (List (List String × ℤ)) := none
  dep_graph_window_size : Option ℤ := some 2
  do_full_block_in_dep_graph_attention : Option Bool := some true
  do_full_block_in_seq_attention : Option Bool := some false
  do_add_temporal_position_embeddings_to_data_embeddings : Option Bool := some false
  TTE_generation_layer_type : TimeToEventGenerationHeadType :=
    TimeToEventGenerationHeadType.exponential
  TTE_lognormal_generation_num_components : Option ℤ := none
  mean_log_inter_event_time_min : Option Val := none
  std_log_inter_event_time_min : Option Val := none
  is_encoder_decoder : Bool := false

/-- The validated configuration object, restricted to the fields the
output layer reads. -/
structure ModelConfig where
  vocab_sizes_by_measurement : List (String × ℕ)
  vocab_offsets_by_measurement : List (String × ℤ)
  measurements_idxmap : List (String × ℤ)
  measurements_per_generative_mode : DataModality → List String
  event_types_per_measurement : Option (List (String × List String))
  event_types_idxmap : List (String × ℤ)
  measurements_per_dep_graph_level : Option (List (List MeasEntry))
  structured_event_processing_mode : StructuredEventProcessingMode
  TTE_generation_layer_type : TimeToEventGenerationHeadType
  vocab_size : ℕ

/-- The distinct `ValueError` / `TypeError` / `AssertionError` sites of
`StructuredEventStreamTransformerConfig.__init__`. -/
inductive ConfigErr where
  | bad_embedding_dims
  | dep_graph_param_missing
  | dep_graph_param_present
  | no_hidden_or_head_dim
  | hidden_size_not_divisible
  | bad_num_hidden_layers
  | odd_layers_without_seq_attention_types
  | bad_seq_attention_types_len
  | bad_dep_graph_attention_types_len
  | tte_param_missing
  | tte_param_present
  | bad_lognormal_components
  | encoder_decoder_unsupported
deriving DecidableEq

/-- `expand_attention_types_params`. -/
def expand_attention_types_params (attention_types : List (List String × ℤ)) : List String :=
  attention_types.foldl (fun acc it => acc ++ (List.replicate it.2.toNat it.1).flatten) []

/-- The raise sites of `StructuredEventStreamTransformerConfig.__init__`,
in source order, factored out of `mkConfig`.  Checks that are type checks
in Python (`structured_event_processing_mode` membership, the
`measurements_per_dep_graph_level` entry-shape `match`, the
`TTE_generation_layer_type` membership, the `type(...) is int` tests)
cannot fail over this typed embedding and are noted where they occur.
Note that **no** check reads `vocab_offsets_by_measurement` or
`vocab_sizes_by_measurement`. -/
def validateConfigArgs (a : ConfigArgs) : Except ConfigErr Unit := do
  -- categorical/numerical embedding dim asserts
  match a.categorical_embedding_dim with
  | some c =>
    if c ≤ 0 then throw ConfigErr.bad_embedding_dims
    else match a.numerical_embedding_dim with
      | none => throw ConfigErr.bad_embedding_dims
      | some n => if n ≤ 0 then throw ConfigErr.bad_embedding_dims else pure ()
  | none => pure ()
  -- `structured_event_processing_mode` enum membership: cannot fail here.
  -- dependency-graph mandatory present / absent loop, in dict order
  match a.structured_event_processing_mode with
  | StructuredEventProcessingMode.nested_attention =>
    -- MANDATORY_PRESENT_PARAMS for nested attention
    if a.do_full_block_in_seq_attention.isNone then throw ConfigErr.dep_graph_param_missing
    else if a.do_full_block_in_dep_graph_attention.isNone then
      throw ConfigErr.dep_graph_param_missing
    else if a.do_add_temporal_position_embeddings_to_data_embeddings.isNone then
      throw ConfigErr.dep_graph_param_missing
    else pure ()
  | StructuredEventProcessingMode.conditionally_independent =>
    -- MANDATORY_ABSENT_PARAMS for the conditionally independent mode
    if a.measurements_per_dep_graph_level.isSome then throw ConfigErr.dep_graph_param_present
    else if a.do_full_block_in_seq_attention.isSome then throw ConfigErr.dep_graph_param_present
    else if a.do_full_block_in_dep_graph_attention.isSome then
      throw ConfigErr.dep_graph_param_present
    else if a.dep_graph_attention_types.isSome then throw ConfigErr.dep_graph_param_present
    else if a.dep_graph_window_size.isSome then throw ConfigErr.dep_graph_param_present
    else if a.do_add_temporal_position_embeddings_to_data_embeddings.isSome then
      throw ConfigErr.dep_graph_param_present
    else pure ()
  -- `measurements_per_dep_graph_level` entry-shape check: every entry of
  -- type `MeasEntry` is a string or a (string, valid mode) pair, so the
  -- `case _: raise ValueError` arm is unreachable in this embedding.
  -- hidden size / head dim resolution
  let hh : ℤ × ℤ ←
    match a.hidden_size, a.head_dim with
    | none, none => throw ConfigErr.no_hidden_or_head_dim
    | none, some hd => pure (hd * a.num_attention_heads, hd)
    | some hs, none => pure (hs, hs / a.num_attention_heads)
    | some hs, some hd => pure (hs, hd)
  if hh.2 * a.num_attention_heads ≠ hh.1 then throw ConfigErr.hidden_size_not_divisible
  -- `type(num_hidden_layers) is int` cannot fail over `ℤ`
  if a.num_hidden_layers ≤ 0 then throw ConfigErr.bad_num_hidden_layers
  -- sequence attention types: default requires an even layer count
  let seq_types ←
    match a.seq_attention_types with
    | none =>
      if a.num_hidden_layers % 2 ≠ 0 then throw ConfigErr.odd_layers_without_seq_attention_types
      else pure [((["local", "global"] : List String), a.num_hidden_layers / 2)]
    | some t => pure t
  if ((expand_attention_types_params seq_types).length : ℤ) ≠ a.num_hidden_layers then
    throw ConfigErr.bad_seq_attention_types_len
  -- dependency-graph attention types, only outside the CI mode
  match a.structured_event_processing_mode with
  | StructuredEventProcessingMode.conditionally_independent => pure ()
  | StructuredEventProcessingMode.nested_attention =>
    let dg_types := a.dep_graph_attention_types.getD
      [((["global"] : List String), a.num_hidden_layers)]
    if ((expand_attention_types_params dg_types).length : ℤ) ≠ a.num_hidden_layers then
      throw ConfigErr.bad_dep_graph_attention_types_len
    else pure ()
  -- `TTE_generation_layer_type` enum membership: cannot fail here.
  -- TTE mandatory present / absent loop, in dict order
  match a.TTE_generation_layer_type with
  | TimeToEventGenerationHeadType.log_normal_mixture =>
    if a.TTE_lognormal_generation_num_components.isNone then throw ConfigErr.tte_param_missing
    else pure ()
  | TimeToEventGenerationHeadType.exponential =>
    if a.TTE_lognormal_generation_num_components.isSome then throw ConfigErr.tte_param_present
    else if a.mean_log_inter_event_time_min.isSome then throw ConfigErr.tte_param_present
    else if a.std_log_inter_event_time_min.isSome then throw ConfigErr.tte_param_present
    else pure ()
  -- log-normal component count positivity (`type(...) is int` cannot fail)
  match a.TTE_generation_layer_type, a.TTE_lognormal_generation_num_components with
  | TimeToEventGenerationHeadType.log_normal_mixture, some k =>
    if k ≤ 0 then throw ConfigErr.bad_lognormal_components else pure ()
  | _, _ => pure ()
  -- `assert not kwargs.get('is_encoder_decoder', False)`
  if a.is_encoder_decoder then throw ConfigErr.encoder_decoder_unsupported
  pure ()

/-- `StructuredEventStreamTransformerConfig.__init__`: run every check in
source order (`validateConfigArgs`), then store the fields the output
layer reads.  The vocabulary dictionaries (after the `None ↦ {}`
defaulting of lines 381-382) are stored **as given**, with no
monotonicity or overlap validation;
`vocab_size = max(sum(vocab_sizes.values()), 1)` per line 579. -/
def mkConfig (a : ConfigArgs) : Except ConfigErr ModelConfig := do
  validateConfigArgs a
  pure {
    vocab_sizes_by_measurement := a.vocab_sizes_by_measurement.getD []
    vocab_offsets_by_measurement := a.vocab_offsets_by_measurement.getD []
    measurements_idxmap := a.measurements_idxmap.getD []
    measurements_per_generative_mode := a.measurements_per_generative_mode.getD (fun _ => [])
    event_types_per_measurement := some (a.event_types_per_measurement.getD [])
    event_types_idxmap := a.event_types_idxmap.getD []
    measurements_per_dep_graph_level := a.measurements_per_dep_graph_level
    structured_event_processing_mode := a.structured_event_processing_mode
    TTE_generation_layer_type := a.TTE_generation_layer_type
    vocab_size := max ((a.vocab_sizes_by_measurement.getD []).map Prod.snd).sum 1
  }

/-! ## Batch and external head modules -/

/-- `EventStreamPytorchBatch`, restricted to the fields
`StructuredEventStreamGenerativeOutputLayer` reads.  `B` = batch size,
`S` = sequence length, `K` = max measurements per event. -/
structure Batch (B S K : ℕ) where
  dynamic_indices : Fin B → Fin S → Fin K → ℤ
  dynamic_measurement_indices : Fin B → Fin S → Fin K → ℤ
  dynamic_values : Fin B → Fin S → Fin K → Val
  dynamic_values_mask : Fin B → Fin S → Fin K → Bool
  event_mask : Fin B → Fin S → Bool
  time : Fin B → Fin S → Val

/-- The sub-modules of the output layer whose source is *not* under
`src/` (`generative_layers.py` for `tteLogProb` and `regLogProb`) or is
the torch library (`ClassificationLayer` = `torch.nn.Linear` with learned
weights, `ceLoss` = `CrossEntropyLoss(reduction='none')`, `bceLoss` =
`BCEWithLogitsLoss(reduction='none')`).  They enter the embedding as
parameters:

* `tteLogProb h t` — modelled from the spec §4.5: the TTE layer maps each
  position's whole-event hidden vector `h` to a duration distribution
  (exponential or log-normal mixture, via affine maps of `h`); only its
  pointwise log-density at `t` is ever consumed by `model.py`.
* `ClassificationLayer h` — the affine map of `self.ClassificationLayer`
  from hidden size to the full vocabulary, at one position.
* `ceLoss scores label` — per-event categorical cross entropy over a
  sliced score vector.
* `bceLoss logit target` — per-label binary cross entropy with logits.
* `regLogProb m h i v` — modelled from the spec §4.4:
  `GaussianIndexedRegressionLayer` for measurement `m` conditions on the
  hidden vector `h` and the target index `i` and scores the observed
  value `v`; only this pointwise log-density is consumed by `model.py`.
-/
structure Heads (H V : ℕ) where
  tteLogProb : (Fin H → Val) → Val → Val
  ClassificationLayer : (Fin H → Val) → Fin V → Val
  ceLoss : List Val → ℤ → Val
  bceLoss : Val → Val → Val
  regLogProb : String → (Fin H → Val) → ℤ → Val → Val

/-- One insertion into `classification_mode_per_measurement`:
`assert measurement not in self.classification_mode_per_measurement`
(`none` models the `AssertionError`), then
`self.classification_mode_per_measurement[measurement] = generative_mode`. -/
def cmStep (mode : DataModality) (acc : Option (List (String × DataModality)))
    (m : String) : Option (List (String × DataModality)) :=
  acc.bind fun l => if m ∈ keysA l then none else some (l ++ [(m, mode)])

/-- The `classification_mode_per_measurement` construction loop of
`StructuredEventStreamGenerativeOutputLayer.__init__` (model.py:72-77):
iterate the generative modes, skip `MULTIVARIATE_REGRESSION`, and insert
each measurement via `cmStep`. -/
def mkClassificationModes (mpgm : DataModality → List String) :
    Option (List (String × DataModality)) :=
  [DataModality.single_label_classification, DataModality.multi_label_classification,
   DataModality.multivariate_regression].foldl
    (fun acc mode =>
      if mode = DataModality.multivariate_regression then acc
      else (mpgm mode).foldl (cmStep mode) acc)
    (some [])

/-- The constructed output layer: configuration, external head modules,
and the `classification_mode_per_measurement` dictionary. -/
structure OutputLayer (H : ℕ) where
  config : ModelConfig
  heads : Heads H config.vocab_size
  classification_mode_per_measurement : List (String × DataModality)

/-- `StructuredEventStreamGenerativeOutputLayer.__init__`: the TTE-layer
`match` cannot hit its error arm over the typed enum; the criteria and
regression layers are bundled in `heads`; the only failure mode is the
duplicate-measurement assertion of `mkClassificationModes`. -/
def mkOutputLayer {H : ℕ} (config : ModelConfig) (heads : Heads H config.vocab_size) :
    Option (OutputLayer H) :=
  (mkClassificationModes config.measurements_per_generative_mode).map
    fun modes => ⟨config, heads, modes⟩

/-! ## `get_TTE_outputs` (model.py:79-142) -/

/-- For `j < S-1`, the index `j : Fin S`. -/
def finLow {S : ℕ} (j : Fin (S - 1)) : Fin S :=
  ⟨j.val, lt_of_lt_of_le j.isLt (Nat.sub_le S 1)⟩

/-- For `j < S-1`, the index `j+1 : Fin S`. -/
def finHigh {S : ℕ} (j : Fin (S - 1)) : Fin S :=
  ⟨j.val + 1, by have := j.isLt; omega⟩

/-- `TTE_obs_mask = batch['event_mask'][:, 1:] & batch['event_mask'][:, :-1]`. -/
def TTE_obs_mask {B S K : ℕ} (batch : Batch B S K) : Fin B → Fin (S - 1) → Bool :=
  fun b j => batch.event_mask b (finHigh j) && batch.event_mask b (finLow j)

/-- `TTE_delta = batch['time'].diff()`. -/
def TTE_delta {B S K : ℕ} (batch : Batch B S K) : Fin B → Fin (S - 1) → Val :=
  fun b j => (batch.time b (finHigh j)).sub (batch.time b (finLow j))

/-- `TTE_true = torch.where(TTE_obs_mask, TTE_delta, torch.ones_like(TTE_delta))`. -/
def TTE_true {B S K : ℕ} (batch : Batch B S K) : Fin B → Fin (S - 1) → Val :=
  fun b j => if TTE_obs_mask batch b j then TTE_delta batch b j else Val.fin 1

/-- `TTE_true_exp = torch.cat((TTE_true, ones), dim=-1)`: a fake
observation of `1.0` appended at the last sequence position. -/
def TTE_true_exp {B S K : ℕ} (batch : Batch B S K) : Fin B → Fin S → Val :=
  fun b j => if h : j.val < S - 1 then TTE_true batch b ⟨j.val, h⟩ else Val.fin 1

/-- `TTE_obs_mask_exp = torch.cat((TTE_obs_mask, zeros), dim=-1)`: the
appended fake observation is never observed. -/
def TTE_obs_mask_exp {B S K : ℕ} (batch : Batch B S K) : Fin B → Fin S → Bool :=
  fun b j => if h : j.val < S - 1 then TTE_obs_mask batch b ⟨j.val, h⟩ else false

/-- The predicted TTE distribution object `TTE_dist = self.TTE_layer(encoded)`.
Its random variables have shape `[B, S]`; the distribution is a function
of the encodings it was built from, which the structure records.  Its
pointwise log-density is `heads.tteLogProb` applied to a column of `X`. -/
structure TTEDist (B S H : ℕ) where
  X : Fin B → Fin S → Fin H → Val

/-- The raise sites of `get_TTE_outputs` (model.py:130-137), each carrying
the offending batch as the Python `ValueError` message does.  The first
check, `TTE_obs_mask_exp.isnan().any()`, is on a boolean tensor, for which
`torch.isnan` is constantly `False`; it is therefore unreachable and has
no constructor. -/
inductive TTEErr (B S K : ℕ) where
  | nan_TTE_true_exp (batch : Batch B S K)
  | nan_TTE_LL (batch : Batch B S K)
  | no_observed_TTE (batch : Batch B S K)

/-- `TTE_LL = TTE_dist.log_prob(TTE_true_exp)`. -/
def TTE_LL {B S K H V : ℕ} (heads : Heads H V) (batch : Batch B S K)
    (encoded : Fin B → Fin S → Fin H → Val) : Fin B → Fin S → Val :=
  fun b j => heads.tteLogProb (fun h => encoded b j h) (TTE_true_exp batch b j)

/-- `.isnan().any()` over a `[B,S]` tensor. -/
def anyNan {B S : ℕ} (x : Fin B → Fin S → Val) : Bool :=
  (List.finRange B).any fun b => (List.finRange S).any fun j => (x b j).isnan

/-- `StructuredEventStreamGenerativeOutputLayer.get_TTE_outputs`.
Returns `(TTE_LL_overall, TTE_dist, TTE_true)` or raises. -/
def get_TTE_outputs {B S K H V : ℕ} (heads : Heads H V) (batch : Batch B S K)
    (encoded : Fin B → Fin S → Fin H → Val) :
    Except (TTEErr B S K) (Val × TTEDist B S H × (Fin B → Fin (S - 1) → Val)) :=
  -- `TTE_obs_mask_exp.isnan().any()`: constantly false on a bool tensor.
  if anyNan (fun b j => TTE_true_exp batch b j) then
    Except.error (TTEErr.nan_TTE_true_exp batch)
  else if anyNan (TTE_LL heads batch encoded) then
    Except.error (TTEErr.nan_TTE_LL batch)
  else if (List.finRange B).any
      (fun b => maskCount (finRowB (TTE_obs_mask_exp batch b)) = 0) then
    Except.error (TTEErr.no_observed_TTE batch)
  else
    -- `TTE_LL_per_patient` then its macro average `TTE_LL_overall`
    Except.ok (vmean ((List.finRange B).map fun b =>
        (maskedSum (finRow (TTE_LL heads batch encoded b))
            (finRowB (TTE_obs_mask_exp batch b))).div
          (Val.fin (maskCount (finRowB (TTE_obs_mask_exp batch b))))),
      ⟨encoded⟩, TTE_true batch)

/-! ## `get_classification_outputs` (model.py:144-283) -/

/-- The vocabulary indices selected by the Python slice
`[vocab_start:vocab_end]` of a `[..., vocab_size]` tensor (offsets in the
configurations under study are non-negative, so the clamping semantics of
negative Python slice bounds is not exercised). -/
def sliceIdx (V : ℕ) (lo hi : ℤ) : List (Fin V) :=
  (List.finRange V).filter fun i => decide (lo ≤ (i : ℤ)) && decide ((i : ℤ) < hi)

/-- `scores = classification_scores[:, :, vocab_start:vocab_end]` at one
position. -/
def sliceScores {V : ℕ} (g : Fin V → Val) (lo hi : ℤ) : List Val :=
  (sliceIdx V lo hi).map g

/-- `vocab_end = min(o for o in offsets.values() + [vocab_size] if o > vocab_start)`
(model.py:223-226).  Python's `min` raises `ValueError` on an empty
sequence; that is unreachable when `vocab_start < vocab_size` and is
modelled as an empty slice (`vocab_end = vocab_start`). -/
def vocabEnd (config : ModelConfig) (vocab_start : ℤ) : ℤ :=
  match (config.vocab_offsets_by_measurement.map Prod.snd
      ++ [(config.vocab_size : ℤ)]).filter (fun o => vocab_start < o) with
  | [] => vocab_start
  | x :: xs => xs.foldl min x

/-- A classification distribution object: `torch.distributions.Categorical`
or `torch.distributions.Bernoulli` over the logits `scores` (the sliced
output of the classification layer, kept whole so that theorems can state
which encodings the distribution was computed from). -/
inductive ClsDist (B S : ℕ) where
  | categorical (scores : Fin B → Fin S → List Val)
  | bernoulli (scores : Fin B → Fin S → List Val)

/-- Classification labels: a `LongTensor [B,S]` of class indices for
single-label measurements, a `FloatTensor [B,S,width]` of binary
indicators for multi-label measurements. -/
inductive ClsLabels (B S : ℕ) where
  | single (l : Fin B → Fin S → ℤ)
  | multi (l : Fin B → Fin S → List Val)

/-- The triple of dictionaries `get_classification_outputs` returns. -/
def ClsOuts (B S : ℕ) : Type :=
  List (String × Val) × List (String × ClsDist B S) × List (String × ClsLabels B S)

/-- The body of the measurement loop of `get_classification_outputs` for
one entry of `classification_mode_per_measurement`. -/
def clsStep {B S K H : ℕ} (layer : OutputLayer H) (batch : Batch B S K)
    (encoded : Fin B → Fin S → Fin H → Val) (valid : List String)
    (etm : Option (List (String × (Fin B → Fin S → Bool))))
    (acc : ClsOuts B S) (p : String × DataModality) : ClsOuts B S :=
  if p.1 ∉ valid then acc
  else
    let m := p.1
    -- `event_type_mask_per_measurement[measurement] & batch['event_mask']`
    -- (a missing key would raise `KeyError`; defaulted, unexercised)
    let event_mask : Fin B → Fin S → Bool :=
      match etm with
      | some d => fun b s => lookupD d m (fun _ _ => true) b s && batch.event_mask b s
      | none => batch.event_mask
    let measurement_idx := lookupD layer.config.measurements_idxmap m 0
    let vocab_start := lookupD layer.config.vocab_offsets_by_measurement m 0
    let vocab_end := vocabEnd layer.config vocab_start
    let scores : Fin B → Fin S → List Val := fun b s =>
      sliceScores (layer.heads.ClassificationLayer (fun h => encoded b s h)) vocab_start vocab_end
    let tensor_idx : Fin B → Fin S → Fin K → Bool := fun b s k =>
      batch.dynamic_measurement_indices b s k = measurement_idx
    match p.2 with
    | DataModality.single_label_classification =>
      let events_with_label : Fin B → Fin S → Bool := fun b s =>
        (List.finRange K).any (tensor_idx b s)
      let labels : Fin B → Fin S → ℤ := fun b s =>
        (((List.finRange K).map fun k =>
            batch.dynamic_indices b s k * (if tensor_idx b s k then 1 else 0)).sum
          - vocab_start) * (if events_with_label b s then 1 else 0)
      let loss_per_event : Fin B → Fin S → Val := fun b s =>
        layer.heads.ceLoss (scores b s) (labels b s)
      let event_mask' : Fin B → Fin S → Bool := fun b s =>
        event_mask b s && events_with_label b s
      let loss_overall := weighted_loss loss_per_event event_mask'
      (acc.1 ++ [(m, loss_overall)], acc.2.1 ++ [(m, ClsDist.categorical scores)],
        acc.2.2 ++ [(m, ClsLabels.single labels)])
    | DataModality.multi_label_classification =>
      let data_labels_or_zero : Fin B → Fin S → Fin K → ℤ := fun b s k =>
        if tensor_idx b s k then batch.dynamic_indices b s k - vocab_start + 1 else 0
      -- zeros of width `1 + scores.shape[2]`, `scatter` of ones at the
      -- shifted label indices (an out-of-range index would raise in
      -- torch; unexercised), then the sentinel column 0 is dropped
      let W := (sliceIdx layer.config.vocab_size vocab_start vocab_end).length
      let labels : Fin B → Fin S → List Val := fun b s =>
        (List.range W).map fun j =>
          Val.ofBool ((List.finRange K).any fun k =>
            data_labels_or_zero b s k = (j : ℤ) + 1)
      let loss_per_event : Fin B → Fin S → Val := fun b s =>
        vmean (List.zipWith layer.heads.bceLoss (scores b s) (labels b s))
      let loss_overall := weighted_loss loss_per_event event_mask
      (acc.1 ++ [(m, loss_overall)], acc.2.1 ++ [(m, ClsDist.bernoulli scores)],
        acc.2.2 ++ [(m, ClsLabels.multi labels)])
    | DataModality.multivariate_regression =>
      -- `else: raise ValueError`: unreachable, `mkClassificationModes`
      -- never maps a measurement to the regression modality
      acc

/-- `StructuredEventStreamGenerativeOutputLayer.get_classification_outputs`. -/
def get_classification_outputs {B S K H : ℕ} (layer : OutputLayer H) (batch : Batch B S K)
    (encoded : Fin B → Fin S → Fin H → Val) (valid : List String)
    (etm : Option (List (String × (Fin B → Fin S → Bool)))) : ClsOuts B S :=
  if valid.isEmpty then ([], [], [])
  else layer.classification_mode_per_measurement.foldl
    (clsStep layer batch encoded valid etm) ([], [], [])

/-! ## `get_regression_outputs` (model.py:285-406) -/

/-- A regression distribution object
`regression_layers[measurement](X=encoded, I=indices_or_None)`: the
`GaussianIndexedRegressionLayer` output is a function of the encodings
`X` and (outside generation) the observed target indices `I`, which the
structure records.  Its pointwise log-density is `heads.regLogProb`. -/
structure RegDist (B S K H : ℕ) where
  X : Fin B → Fin S → Fin H → Val
  I : Option (Fin B → Fin S → Fin K → ℤ)

/-- The quadruple of dictionaries `get_regression_outputs` returns.  In
generation mode the Python function stores `None` losses and returns
`None` in place of the label/index dictionaries; the caller reads those
components only outside generation mode, so the embedding keeps plain
lists and simply adds no loss entries in generation mode. -/
def RegOuts (B S K H : ℕ) : Type :=
  List (String × Val) × List (String × RegDist B S K H)
    × List (String × (Fin B → Fin S → Fin K → Val))
    × List (String × (Fin B → Fin S → Fin K → ℤ))

/-- The body of the measurement loop of `get_regression_outputs`. -/
def regStep {B S K H : ℕ} (layer : OutputLayer H) (batch : Batch B S K)
    (encoded : Fin B → Fin S → Fin H → Val) (valid : List String) (is_generation : Bool)
    (etm : Option (List (String × (Fin B → Fin S → Bool))))
    (acc : RegOuts B S K H) (m : String) : RegOuts B S K H :=
  if m ∉ valid then acc
  else
    let event_mask : Fin B → Fin S → Bool :=
      match etm with
      | some d => fun b s => lookupD d m (fun _ _ => true) b s && batch.event_mask b s
      | none => batch.event_mask
    let measurement_idx := lookupD layer.config.measurements_idxmap m 0
    let vocab_start := lookupD layer.config.vocab_offsets_by_measurement m 0
    let tensor_idx : Fin B → Fin S → Fin K → Bool := fun b s k =>
      (batch.dynamic_measurement_indices b s k = measurement_idx)
        && batch.dynamic_values_mask b s k
    let indices_measured_or_zero : Fin B → Fin S → Fin K → ℤ := fun b s k =>
      if tensor_idx b s k then batch.dynamic_indices b s k - vocab_start else 0
    let regr_dist : RegDist B S K H :=
      ⟨encoded, if is_generation then none else some indices_measured_or_zero⟩
    let values_observed_or_zero : Fin B → Fin S → Fin K → Val := fun b s k =>
      if tensor_idx b s k then batch.dynamic_values b s k else Val.fin 0
    let losses :=
      if is_generation then acc.1
      else
        let loss_per_label : Fin B → Fin S → Fin K → Val := fun b s k =>
          (layer.heads.regLogProb m (fun h => encoded b s h)
            (indices_measured_or_zero b s k) (values_observed_or_zero b s k)).neg
        let loss_per_event : Fin B → Fin S → Val := fun b s =>
          safeAvg (finRow (loss_per_label b s)) (finRowB (tensor_idx b s))
        let events_with_label : Fin B → Fin S → Bool := fun b s =>
          event_mask b s && (List.finRange K).any (tensor_idx b s)
        acc.1 ++ [(m, weighted_loss loss_per_event events_with_label)]
    (losses, acc.2.1 ++ [(m, regr_dist)],
      acc.2.2.1 ++ [(m, values_observed_or_zero)],
      acc.2.2.2 ++ [(m, indices_measured_or_zero)])

/-- `StructuredEventStreamGenerativeOutputLayer.get_regression_outputs`. -/
def get_regression_outputs {B S K H : ℕ} (layer : OutputLayer H) (batch : Batch B S K)
    (encoded : Fin B → Fin S → Fin H → Val) (valid : List String) (is_generation : Bool)
    (etm : Option (List (String × (Fin B → Fin S → Bool)))) : RegOuts B S K H :=
  if valid.isEmpty then ([], [], [], [])
  else (layer.config.measurements_per_generative_mode
      DataModality.multivariate_regression).foldl
    (regStep layer batch encoded valid is_generation etm) ([], [], [], [])

/-! ## `get_event_type_mask_per_measurement` (model.py:408-433) -/

/-- `batch_event_type_indices` (model.py:417-421): the event-type id per
slot, or the sentinel `-1` for slots not carrying the reserved
`event_type` measurement. -/
def batch_event_type_indices {B S K : ℕ} (config : ModelConfig) (batch : Batch B S K) :
    Fin B → Fin S → Fin K → ℤ := fun b s k =>
  if batch.dynamic_measurement_indices b s k
      = lookupD config.measurements_idxmap "event_type" 0 then
    batch.dynamic_indices b s k - lookupD config.vocab_offsets_by_measurement "event_type" 0
  else -1

/-- The mask computed for one measurement with applicable event types
`vs` (model.py:424-432): `True` where any slot's event-type id equals any
applicable id. -/
def etMaskFor {B S K : ℕ} (config : ModelConfig) (batch : Batch B S K)
    (vs : List String) : Fin B → Fin S → Bool := fun b s =>
  (vs.map fun et => lookupD config.event_types_idxmap et 0).any fun i =>
    (List.finRange K).any fun k => batch_event_type_indices config batch b s k = i

/-- `StructuredEventStreamGenerativeOutputLayer.get_event_type_mask_per_measurement`.
(`torch.stack` on an empty list of valid event types would raise; the
configurations under study declare at least one event type per listed
measurement.) -/
def get_event_type_mask_per_measurement {B S K : ℕ} (config : ModelConfig)
    (batch : Batch B S K) : Option (List (String × (Fin B → Fin S → Bool))) :=
  match config.event_types_per_measurement with
  | none => none
  | some d => some (d.map fun p => (p.1, etMaskFor config batch p.2))

/-! ## `forward` (model.py:435-591) -/

/-- The encoder output: `[B,S,H]` in the conditionally-independent mode,
`[B,S,L,H]` otherwise (model.py:438-444). -/
inductive Encoded (B S H : ℕ) where
  | ci (e : Fin B → Fin S → Fin H → Val)
  | nested (L : ℕ) (e : Fin B → Fin S → Fin L → Fin H → Val)

/-- Failures of `forward`: a `get_TTE_outputs` raise, or the tensor-shape
unpacking (`bsz, seq_len, ... = encoded.shape`, or `encoded[:, :, -1, :]`
on an empty dependency-graph dimension) raising on an encoder output whose
rank does not match the configured processing mode. -/
inductive ForwardErr (B S K : ℕ) where
  | tte (e : TTEErr B S K)
  | shape_mismatch

/-- `EventStreamTransformerForGenerativeSequenceModelOutput`, restricted
to the fields `forward` fills (field names flattened from the nested
`losses` / `preds` / `labels` dataclasses). -/
structure ModelOutput (B S K H : ℕ) where
  loss : Option Val
  losses_classification : Option (List (String × Val))
  losses_regression : Option (List (String × Val))
  losses_time_to_event : Option Val
  preds_classification : List (String × ClsDist B S)
  preds_regression : List (String × RegDist B S K H)
  preds_regression_indices : Option (List (String × (Fin B → Fin S → Fin K → ℤ)))
  preds_time_to_event : TTEDist B S H
  labels_classification : Option (List (String × ClsLabels B S))
  labels_regression : Option (List (String × (Fin B → Fin S → Fin K → Val)))
  labels_time_to_event : Option (Fin B → Fin (S - 1) → Val)
  event_type_mask_per_measurement : Option (List (String × (Fin B → Fin S → Bool)))
  event_mask : Fin B → Fin S → Bool
  dynamic_values_mask : Fin B → Fin S → Fin K → Bool

/-- `for_event_contents_prediction = torch.cat((zeros, whole_event_encoded[:, :-1, :]), dim=1)`
(model.py:476-478): a zero vector is prepended to predict the first
event's contents and the last event's encoding drops off the end. -/
def ciShift {B S H : ℕ} (e : Fin B → Fin S → Fin H → Val) : Fin B → Fin S → Fin H → Val :=
  fun b s h => if hs : s.val = 0 then Val.fin 0 else e b ⟨s.val - 1, by omega⟩ h

/-- The categorical and numerical measurement-name sets declared by one
dependency-graph level (model.py:519-534): a bare name counts as
`CATEGORICAL_AND_NUMERICAL`; the `case _: raise ValueError(f"Unknown mode...")`
arm is unreachable over the typed `MeasIndexGroupOptions`. -/
def levelEntrySets (lvl : List MeasEntry) : List String × List String :=
  lvl.foldl
    (fun cn ent =>
      match ent with
      | MeasEntry.plain m => (cn.1 ++ [m], cn.2 ++ [m])
      | MeasEntry.pair m MeasIndexGroupOptions.categorical_and_numerical =>
        (cn.1 ++ [m], cn.2 ++ [m])
      | MeasEntry.pair m MeasIndexGroupOptions.categorical_only => (cn.1 ++ [m], cn.2)
      | MeasEntry.pair m MeasIndexGroupOptions.numerical_only => (cn.1, cn.2 ++ [m]))
    ([], [])

/-- The valid measurement sets for dependency-graph level `i`
(model.py:512-541): with no configured partition every level carries every
measurement; otherwise the level's declared categorical (resp. numerical)
names intersected with the classification (resp. regression)
measurements. -/
def levelMeasurementSets {H : ℕ} (layer : OutputLayer H) (i : ℕ) :
    List String × List String :=
  let classification_measurements := keysA layer.classification_mode_per_measurement
  let regression_measurements :=
    layer.config.measurements_per_generative_mode DataModality.multivariate_regression
  match layer.config.measurements_per_dep_graph_level with
  | none => (classification_measurements, regression_measurements)
  | some lvls =>
    let cn := levelEntrySets (lvls.getD i [])
    (cn.1.filter (· ∈ classification_measurements),
      cn.2.filter (· ∈ regression_measurements))

/-- The accumulating containers of `forward` for the per-measurement head
outputs. -/
structure HeadAcc (B S K H : ℕ) where
  clsLoss : List (String × Val)
  clsDist : List (String × ClsDist B S)
  clsLab : List (String × ClsLabels B S)
  regLoss : List (String × Val)
  regDist : List (String × RegDist B S K H)
  regLab : List (String × (Fin B → Fin S → Fin K → Val))
  regIdx : List (String × (Fin B → Fin S → Fin K → ℤ))

/-- Call both head functions on one encoded tensor with the given valid
measurement sets and `.update(...)` the results into the accumulator
(the body shared by the conditionally-independent branch and each
iteration of the dependency-graph loop of `forward`). -/
def accumHeads {B S K H : ℕ} (layer : OutputLayer H) (batch : Batch B S K)
    (etm : Option (List (String × (Fin B → Fin S → Bool)))) (is_generation : Bool)
    (enc : Fin B → Fin S → Fin H → Val) (valids : List String × List String)
    (acc : HeadAcc B S K H) : HeadAcc B S K H :=
  let c := get_classification_outputs layer batch enc valids.1 etm
  let r := get_regression_outputs layer batch enc valids.2 is_generation etm
  { clsLoss := dictUpdate acc.clsLoss c.1
    clsDist := dictUpdate acc.clsDist c.2.1
    clsLab := dictUpdate acc.clsLab c.2.2
    regLoss := dictUpdate acc.regLoss r.1
    regDist := dictUpdate acc.regDist r.2.1
    regLab := dictUpdate acc.regLab r.2.2.1
    regIdx := dictUpdate acc.regIdx r.2.2.2 }

/-- The dependency-graph slice `encoded[:, :, j, :]` (total: the callers
only use `j < L`). -/
def depSlice {B S L H : ℕ} (e : Fin B → Fin S → Fin L → Fin H → Val) (j : ℕ) :
    Fin B → Fin S → Fin H → Val :=
  fun b s h => if hj : j < L then e b s ⟨j, hj⟩ h else Val.fin 0

/-- The loop indices `range(1, dep_graph_len)` of the nested-attention
branch of `forward` (model.py:505), as the sorted list `[1, ..., L-1]`. -/
def depLoopIdx (L : ℕ) : List (Fin L) := (List.finRange L).filter fun i => 1 ≤ i.val

/-- One iteration of the dependency-graph loop of `forward`
(model.py:505-561): level `i` consumes `encoded[:, :, i-1, :]` and
dispatches the measurement sets declared by
`measurements_per_dep_graph_level[i]`. -/
def nestedStep {B S K H L : ℕ} (layer : OutputLayer H) (batch : Batch B S K)
    (etm : Option (List (String × (Fin B → Fin S → Bool)))) (is_generation : Bool)
    (e : Fin B → Fin S → Fin L → Fin H → Val) (acc : HeadAcc B S K H) (i : Fin L) :
    HeadAcc B S K H :=
  accumHeads layer batch etm is_generation (depSlice e (i.val - 1))
    (levelMeasurementSets layer i.val) acc

/-- Assemble the `EventStreamTransformerForGenerativeSequenceModelOutput`
(model.py:566-591) from the accumulated head outputs and the TTE results. -/
def assembleOutput {B S K H : ℕ} (batch : Batch B S K) (is_generation : Bool)
    (acc : HeadAcc B S K H)
    (etm : Option (List (String × (Fin B → Fin S → Bool))))
    (tte : Val × TTEDist B S H × (Fin B → Fin (S - 1) → Val)) : ModelOutput B S K H :=
  { loss :=
      if is_generation then none
      else some (((vsum (acc.clsLoss.map Prod.snd)).add
        (vsum (acc.regLoss.map Prod.snd))).sub tte.1)
    losses_classification := if is_generation then none else some acc.clsLoss
    losses_regression := if is_generation then none else some acc.regLoss
    losses_time_to_event := if is_generation then none else some tte.1.neg
    preds_classification := acc.clsDist
    preds_regression := acc.regDist
    preds_regression_indices := if is_generation then none else some acc.regIdx
    preds_time_to_event := tte.2.1
    labels_classification := if is_generation then none else some acc.clsLab
    labels_regression := if is_generation then none else some acc.regLab
    labels_time_to_event := if is_generation then none else some tte.2.2
    event_type_mask_per_measurement := etm
    event_mask := batch.event_mask
    dynamic_values_mask := batch.dynamic_values_mask }

/-- `StructuredEventStreamGenerativeOutputLayer.forward`. -/
def forward {B S K H : ℕ} (layer : OutputLayer H) (batch : Batch B S K)
    (encoded : Encoded B S H) (is_generation : Bool) :
    Except (ForwardErr B S K) (ModelOutput B S K H) :=
  let etm := get_event_type_mask_per_measurement layer.config batch
  let classification_measurements := keysA layer.classification_mode_per_measurement
  let regression_measurements :=
    layer.config.measurements_per_generative_mode DataModality.multivariate_regression
  match layer.config.structured_event_processing_mode, encoded with
  | StructuredEventProcessingMode.conditionally_independent, Encoded.ci e =>
    let whole_event_encoded := e
    let for_event_contents_prediction := ciShift whole_event_encoded
    let acc := accumHeads layer batch etm is_generation for_event_contents_prediction
      (classification_measurements, regression_measurements)
      ⟨[], [], [], [], [], [], []⟩
    match get_TTE_outputs layer.heads batch whole_event_encoded with
    | Except.error err => Except.error (ForwardErr.tte err)
    | Except.ok tte => Except.ok (assembleOutput batch is_generation acc etm tte)
  | StructuredEventProcessingMode.nested_attention, Encoded.nested L e =>
    if 0 < L then
      let whole_event_encoded := depSlice e (L - 1)
      let acc := (depLoopIdx L).foldl (nestedStep layer batch etm is_generation e)
        ⟨[], [], [], [], [], [], []⟩
      match get_TTE_outputs layer.heads batch whole_event_encoded with
      | Except.error err => Except.error (ForwardErr.tte err)
      | Except.ok tte => Except.ok (assembleOutput batch is_generation acc etm tte)
    else Except.error ForwardErr.shape_mismatch
  | _, _ => Except.error ForwardErr.shape_mismatch

/-! ## Supporting lemmas -/

theorem keysA_append {α : Type} (a b : List (String × α)) :
    keysA (a ++ b) = keysA a ++ keysA b := by
  simp [keysA]

theorem cmFold_none (mode : DataModality) (l : List String) :
    l.foldl (cmStep mode) none = none := by
  induction l with
  | nil => rfl
  | cons m l ih => simpa [cmStep] using ih

theorem cmFold_some (mode : DataModality) (l : List String)
    (a r : List (String × DataModality))
    (h : l.foldl (cmStep mode) (some a) = some r) :
    r = a ++ l.map (fun m => (m, mode)) ∧ (∀ m ∈ l, m ∉ keysA a) ∧ l.Nodup := by
  induction l generalizing a with
  | nil => simp only [List.foldl_nil, Option.some.injEq] at h; simp [h.symm]
  | cons m l ih =>
    rw [List.foldl_cons] at h
    by_cases hm : m ∈ keysA a
    · rw [show cmStep mode (some a) m = none by simp [cmStep, hm]] at h
      rw [cmFold_none] at h
      cases h
    · rw [show cmStep mode (some a) m = some (a ++ [(m, mode)]) by simp [cmStep, hm]] at h
      obtain ⟨h1, h2, h3⟩ := ih _ h
      refine ⟨by rw [h1]; simp, ?_, ?_⟩
      · intro x hx
        rcases List.mem_cons.mp hx with rfl | hx'
        · exact hm
        · intro hk
          exact h2 x hx' (by simp [keysA_append, hk])
      · refine List.nodup_cons.mpr ⟨fun hml => h2 m hml ?_, h3⟩
        simp [keysA_append, keysA]

theorem keysA_map_mode (l : List String) (mode : DataModality) :
    keysA (l.map fun m => (m, mode)) = l := by
  simp [keysA, Function.comp_def]

theorem mkClassificationModes_eq (mpgm : DataModality → List String) :
    mkClassificationModes mpgm =
      (mpgm DataModality.multi_label_classification).foldl
        (cmStep DataModality.multi_label_classification)
        ((mpgm DataModality.single_label_classification).foldl
          (cmStep DataModality.single_label_classification) (some [])) := rfl

theorem mkClassificationModes_spec (mpgm : DataModality → List String)
    (r : List (String × DataModality))
    (h : mkClassificationModes mpgm = some r) :
    r = (mpgm DataModality.single_label_classification).map
          (fun m => (m, DataModality.single_label_classification))
        ++ (mpgm DataModality.multi_label_classification).map
          (fun m => (m, DataModality.multi_label_classification))
    ∧ (mpgm DataModality.single_label_classification).Nodup
    ∧ (mpgm DataModality.multi_label_classification).Nodup
    ∧ ∀ m ∈ mpgm DataModality.multi_label_classification,
        m ∉ mpgm DataModality.single_label_classification := by
  rw [mkClassificationModes_eq] at h
  cases hsl : (mpgm DataModality.single_label_classification).foldl
      (cmStep DataModality.single_label_classification) (some []) with
  | none =>
    rw [hsl, cmFold_none] at h
    cases h
  | some a =>
    rw [hsl] at h
    obtain ⟨ha1, -, ha3⟩ := cmFold_some _ _ _ _ hsl
    obtain ⟨hb1, hb2, hb3⟩ := cmFold_some _ _ _ _ h
    have ha : a = (mpgm DataModality.single_label_classification).map
        (fun m => (m, DataModality.single_label_classification)) := by simpa using ha1
    refine ⟨by rw [hb1, ha], ha3, hb3, fun m hm => ?_⟩
    have := hb2 m hm
    rw [ha, keysA_map_mode] at this
    exact this

/-- C10: constructing the generative output layer from a configuration
that lists the same measurement under both the single-label and the
multi-label classification generative modes fails the construction-time
assertion of model.py:76 (modelled as `none`); and every successfully
constructed layer has a `classification_mode_per_measurement` dictionary
mapping each classification measurement to exactly one generative mode
(the dictionary is built once in `__init__` and never mutated
afterwards, so the assignment is fixed for the model's lifetime). -/
theorem claim_C10 {H : ℕ} (config : ModelConfig) (heads : Heads H config.vocab_size) :
    (∀ m : String,
      m ∈ config.measurements_per_generative_mode DataModality.single_label_classification →
      m ∈ config.measurements_per_generative_mode DataModality.multi_label_classification →
      mkOutputLayer config heads = none)
    ∧ (∀ layer : OutputLayer H, mkOutputLayer config heads = some layer →
        ∀ m : String,
          (m ∈ config.measurements_per_generative_mode
              DataModality.single_label_classification
            ∨ m ∈ config.measurements_per_generative_mode
              DataModality.multi_label_classification) →
          ∃! mode : DataModality,
            (m, mode) ∈ layer.classification_mode_per_measurement) := by
  constructor
  · intro m h1 h2
    unfold mkOutputLayer
    cases hmk : mkClassificationModes config.measurements_per_generative_mode with
    | none => rfl
    | some r =>
      exfalso
      obtain ⟨-, -, -, hdisj⟩ := mkClassificationModes_spec _ _ hmk
      exact hdisj m h2 h1
  · intro layer hlayer m hm
    unfold mkOutputLayer at hlayer
    cases hmk : mkClassificationModes config.measurements_per_generative_mode with
    | none => rw [hmk] at hlayer; cases hlayer
    | some r =>
      rw [hmk] at hlayer
      obtain rfl := Option.some.inj hlayer
      obtain ⟨hr, hsl, hml, hdisj⟩ := mkClassificationModes_spec _ _ hmk
      have hfield : (⟨config, heads, r⟩ : OutputLayer H).classification_mode_per_measurement
          = r := rfl
      rcases hm with hm | hm
      · refine ⟨DataModality.single_label_classification, ?_, ?_⟩
        · rw [hfield, hr]
          exact List.mem_append_left _ (List.mem_map.mpr ⟨m, hm, rfl⟩)
        · intro mode' hmode'
          rw [hfield, hr] at hmode'
          rcases List.mem_append.mp hmode' with hx | hx
          · obtain ⟨x, -, hx2⟩ := List.mem_map.mp hx
            exact (Prod.mk.inj hx2).2.symm
          · obtain ⟨x, hx1, hx2⟩ := List.mem_map.mp hx
            obtain ⟨hxm, -⟩ := Prod.mk.inj hx2
            exact absurd hm (hdisj m (hxm ▸ hx1))
      · refine ⟨DataModality.multi_label_classification, ?_, ?_⟩
        · rw [hfield, hr]
          exact List.mem_append_right _ (List.mem_map.mpr ⟨m, hm, rfl⟩)
        · intro mode' hmode'
          rw [hfield, hr] at hmode'
          rcases List.mem_append.mp hmode' with hx | hx
          · obtain ⟨x, hx1, hx2⟩ := List.mem_map.mp hx
            obtain ⟨hxm, -⟩ := Prod.mk.inj hx2
            exact absurd (hxm ▸ hx1) (hdisj m hm)
          · obtain ⟨x, -, hx2⟩ := List.mem_map.mp hx
            exact (Prod.mk.inj hx2).2.symm

/-- Trivial instantiations of the external head modules, used to evaluate
the embedding at concrete inputs (any kernels work: the claims under
study never constrain the kernels' numeric outputs). -/
def trivialHeads (H V : ℕ) : Heads H V :=
  ⟨fun _ _ => Val.fin 0, fun _ _ => Val.fin 0, fun _ _ => Val.fin 0,
    fun _ _ => Val.fin 0, fun _ _ _ _ => Val.fin 0⟩

/-- A configuration listing measurement `m` under both classification
generative modes. -/
def cfgC10dup : ModelConfig where
  vocab_sizes_by_measurement := []
  vocab_offsets_by_measurement := []
  measurements_idxmap := []
  measurements_per_generative_mode := fun mode =>
    match mode with
    | DataModality.single_label_classification => ["m"]
    | DataModality.multi_label_classification => ["m"]
    | DataModality.multivariate_regression => []
  event_types_per_measurement := some []
  event_types_idxmap := []
  measurements_per_dep_graph_level := none
  structured_event_processing_mode := StructuredEventProcessingMode.conditionally_independent
  TTE_generation_layer_type := TimeToEventGenerationHeadType.exponential
  vocab_size := 1

/-- A configuration with distinct classification measurements `a` and `b`. -/
def cfgC10ok : ModelConfig where
  vocab_sizes_by_measurement := []
  vocab_offsets_by_measurement := []
  measurements_idxmap := []
  measurements_per_generative_mode := fun mode =>
    match mode with
    | DataModality.single_label_classification => ["a"]
    | DataModality.multi_label_classification => ["b"]
    | DataModality.multivariate_regression => []
  event_types_per_measurement := some []
  event_types_idxmap := []
  measurements_per_dep_graph_level := none
  structured_event_processing_mode := StructuredEventProcessingMode.conditionally_independent
  TTE_generation_layer_type := TimeToEventGenerationHeadType.exponential
  vocab_size := 1

theorem claim_C10_witness :
    mkOutputLayer cfgC10dup (trivialHeads 1 cfgC10dup.vocab_size) = none
    ∧ ∃! mode : DataModality,
        ("a", mode) ∈ (⟨cfgC10ok, trivialHeads 1 cfgC10ok.vocab_size,
            [("a", DataModality.single_label_classification),
             ("b", DataModality.multi_label_classification)]⟩ :
          OutputLayer 1).classification_mode_per_measurement := by
  constructor
  · exact (claim_C10 cfgC10dup (trivialHeads 1 cfgC10dup.vocab_size)).1 "m"
      (by simp [cfgC10dup]) (by simp [cfgC10dup])
  · exact (claim_C10 cfgC10ok (trivialHeads 1 cfgC10ok.vocab_size)).2 _ rfl "a"
      (Or.inl (by simp [cfgC10ok]))

theorem lookupA_cons {α : Type} (k' : String) (v' : α) (l : List (String × α)) (k : String) :
    lookupA ((k', v') :: l) k = if k' = k then some v' else lookupA l k := by
  by_cases h : k' = k
  · simp [lookupA, List.find?_cons, h]
  · simp [lookupA, List.find?_cons, h]

theorem lookupA_append {α : Type} (a b : List (String × α)) (k : String) :
    lookupA (a ++ b) k = ((lookupA a k).orElse fun _ => lookupA b k) := by
  induction a with
  | nil => simp [lookupA]
  | cons p a ih =>
    rw [List.cons_append, show ((p :: a) : List (String × α)) = (p.1, p.2) :: a from rfl,
      lookupA_cons, lookupA_cons]
    by_cases h : p.1 = k
    · simp [h]
    · simp only [if_neg h]
      exact ih

theorem lookupA_map_overwrite {α : Type} (d : List (String × α)) (k : String) (v : α)
    (k' : String) (h : k' ≠ k) :
    lookupA (d.map fun q => if q.1 = k then (k, v) else q) k' = lookupA d k' := by
  induction d with
  | nil => rfl
  | cons p d ih =>
    simp only [List.map_cons]
    have h2 : lookupA (p :: d) k' = if p.1 = k' then some p.2 else lookupA d k' := by
      rw [show ((p :: d) : List (String × α)) = (p.1, p.2) :: d from rfl, lookupA_cons]
    by_cases hp : p.1 = k
    · rw [if_pos hp]
      have h1 : lookupA ((k, v) :: List.map (fun q => if q.1 = k then (k, v) else q) d) k'
          = lookupA (List.map (fun q => if q.1 = k then (k, v) else q) d) k' := by
        rw [lookupA_cons, if_neg (fun hk => h hk.symm)]
      rw [h1, h2, if_neg (by rw [hp]; exact fun hk => h hk.symm), ih]
    · rw [if_neg hp]
      have h1 : lookupA (p :: List.map (fun q => if q.1 = k then (k, v) else q) d) k'
          = if p.1 = k' then some p.2 else
              lookupA (List.map (fun q => if q.1 = k then (k, v) else q) d) k' := by
        rw [show ((p :: List.map (fun q => if q.1 = k then (k, v) else q) d) :
            List (String × α))
            = (p.1, p.2) :: List.map (fun q => if q.1 = k then (k, v) else q) d from rfl,
          lookupA_cons]
      rw [h1, h2, ih]

theorem lookupA_updateOne_self {α : Type} (d : List (String × α)) (k : String) (v : α) :
    lookupA (updateOne d k v) k = some v := by
  unfold updateOne
  by_cases h : (lookupA d k).isSome
  · rw [if_pos h]
    induction d with
    | nil => simp [lookupA] at h
    | cons p d ih =>
      rw [show ((p :: d) : List (String × α)) = (p.1, p.2) :: d from rfl, lookupA_cons] at h
      by_cases hp : p.1 = k
      · simp only [List.map_cons, if_pos hp]
        rw [lookupA_cons, if_pos rfl]
      · simp only [List.map_cons, if_neg hp]
        rw [lookupA_cons, if_neg hp]
        exact ih (by simpa [if_neg hp] using h)
  · rw [if_neg h, lookupA_append]
    rw [Option.not_isSome_iff_eq_none] at h
    rw [h, lookupA_cons, if_pos rfl]
    rfl

theorem lookupA_updateOne_ne {α : Type} (d : List (String × α)) (k : String) (v : α)
    (k' : String) (h : k' ≠ k) : lookupA (updateOne d k v) k' = lookupA d k' := by
  unfold updateOne
  by_cases hs : (lookupA d k).isSome
  · rw [if_pos hs]
    exact lookupA_map_overwrite d k v k' h
  · rw [if_neg hs, lookupA_append, lookupA_cons, if_neg (fun hk => h hk.symm)]
    show (lookupA d k').orElse (fun _ => lookupA ([] : List (String × α)) k') = _
    cases hl : lookupA d k' <;> simp [lookupA]

theorem lookupA_dictUpdate_of_none {α : Type} (d new : List (String × α)) (k : String)
    (h : lookupA new k = none) : lookupA (dictUpdate d new) k = lookupA d k := by
  induction new generalizing d with
  | nil => rfl
  | cons p rest ih =>
    rw [show ((p :: rest) : List (String × α)) = (p.1, p.2) :: rest from rfl,
      lookupA_cons] at h
    by_cases hp : p.1 = k
    · rw [if_pos hp] at h
      cases h
    · rw [if_neg hp] at h
      show lookupA (dictUpdate (updateOne d p.1 p.2) rest) k = lookupA d k
      rw [ih _ h, lookupA_updateOne_ne _ _ _ _ (fun hk => hp hk.symm)]

theorem mem_keysA_of_lookupA {α : Type} (l : List (String × α)) (k : String) (v : α)
    (h : lookupA l k = some v) : k ∈ keysA l := by
  induction l with
  | nil => cases h
  | cons p rest ih =>
    rw [show ((p :: rest) : List (String × α)) = (p.1, p.2) :: rest from rfl,
      lookupA_cons] at h
    show k ∈ p.1 :: keysA rest
    by_cases hp : p.1 = k
    · rw [← hp]
      exact List.mem_cons_self _ _
    · rw [if_neg hp] at h
      exact List.mem_cons_of_mem _ (ih h)

theorem lookupA_dictUpdate_of_some {α : Type} (d new : List (String × α)) (k : String)
    (v : α) (hnodup : (keysA new).Nodup) (h : lookupA new k = some v) :
    lookupA (dictUpdate d new) k = some v := by
  induction new generalizing d with
  | nil => cases h
  | cons p rest ih =>
    rw [show ((p :: rest) : List (String × α)) = (p.1, p.2) :: rest from rfl,
      lookupA_cons] at h
    rw [show keysA ((p :: rest) : List (String × α)) = p.1 :: keysA rest from rfl,
      List.nodup_cons] at hnodup
    by_cases hp : p.1 = k
    · rw [if_pos hp] at h
      have hrest : lookupA rest k = none := by
        cases hl : lookupA rest k with
        | none => rfl
        | some w => exact absurd (hp ▸ mem_keysA_of_lookupA rest k w hl) hnodup.1
      show lookupA (dictUpdate (updateOne d p.1 p.2) rest) k = some v
      rw [lookupA_dictUpdate_of_none _ _ _ hrest, hp, lookupA_updateOne_self]
      exact h
    · rw [if_neg hp] at h
      exact ih _ hnodup.2 h

theorem dictUpdate_append {α : Type} (new d : List (String × α))
    (hdisj : ∀ k ∈ keysA new, lookupA d k = none) (h : (keysA new).Nodup) :
    dictUpdate d new = d ++ new := by
  induction new generalizing d with
  | nil => simp [dictUpdate]
  | cons p rest ih =>
    have hk : lookupA d p.1 = none := hdisj p.1 (List.mem_cons_self _ _)
    have hstep : updateOne d p.1 p.2 = d ++ [(p.1, p.2)] := by
      unfold updateOne
      rw [if_neg (by rw [hk]; simp)]
    show dictUpdate (updateOne d p.1 p.2) rest = d ++ p :: rest
    rw [hstep, ih (d ++ [(p.1, p.2)]) ?hd ?hn]
    · simp
    case hd =>
      intro k hkr
      rw [lookupA_append, hdisj k (List.mem_cons_of_mem _ hkr), lookupA_cons]
      have : p.1 ≠ k := by
        intro hpk
        rw [show keysA ((p :: rest) : List (String × α)) = p.1 :: keysA rest from rfl,
          List.nodup_cons] at h
        exact h.1 (hpk ▸ hkr)
      rw [if_neg this]
      rfl
    case hn =>
      rw [show keysA ((p :: rest) : List (String × α)) = p.1 :: keysA rest from rfl,
        List.nodup_cons] at h
      exact h.2

theorem dictUpdate_nil {α : Type} (new : List (String × α)) (h : (keysA new).Nodup) :
    dictUpdate [] new = new := by
  simpa using dictUpdate_append new [] (fun k _ => rfl) h

/-- Whether the classification loop body emits entries for the
dictionary entry `p`: the measurement must be in `valid_measurements` and
its mode must be a classification mode. -/
def clsPred (valid : List String) (p : String × DataModality) : Bool :=
  decide (p.1 ∈ valid) && decide (p.2 ≠ DataModality.multivariate_regression)

theorem clsStep_shape {B S K H : ℕ} (layer : OutputLayer H) (batch : Batch B S K)
    (encoded : Fin B → Fin S → Fin H → Val) (valid : List String)
    (etm : Option (List (String × (Fin B → Fin S → Bool))))
    (acc : ClsOuts B S) (p : String × DataModality) :
    (clsPred valid p = false ∧ clsStep layer batch encoded valid etm acc p = acc)
    ∨ (clsPred valid p = true ∧ ∃ lo di la,
        clsStep layer batch encoded valid etm acc p
          = (acc.1 ++ [(p.1, lo)], acc.2.1 ++ [(p.1, di)], acc.2.2 ++ [(p.1, la)])) := by
  obtain ⟨m, mode⟩ := p
  by_cases hv : m ∈ valid
  · cases mode with
    | single_label_classification =>
      right
      refine ⟨by simp [clsPred, hv], ?_⟩
      unfold clsStep
      rw [if_neg (not_not_intro hv)]
      exact ⟨_, _, _, rfl⟩
    | multi_label_classification =>
      right
      refine ⟨by simp [clsPred, hv], ?_⟩
      unfold clsStep
      rw [if_neg (not_not_intro hv)]
      exact ⟨_, _, _, rfl⟩
    | multivariate_regression =>
      left
      refine ⟨by simp [clsPred], ?_⟩
      unfold clsStep
      rw [if_neg (not_not_intro hv)]
  · left
    refine ⟨by simp [clsPred, hv], ?_⟩
    unfold clsStep
    rw [if_pos hv]

theorem clsFold_keys {B S K H : ℕ} (layer : OutputLayer H) (batch : Batch B S K)
    (encoded : Fin B → Fin S → Fin H → Val) (valid : List String)
    (etm : Option (List (String × (Fin B → Fin S → Bool))))
    (modes : List (String × DataModality)) (acc : ClsOuts B S) :
    keysA (modes.foldl (clsStep layer batch encoded valid etm) acc).1
        = keysA acc.1 ++ keysA (modes.filter (clsPred valid))
    ∧ keysA (modes.foldl (clsStep layer batch encoded valid etm) acc).2.1
        = keysA acc.2.1 ++ keysA (modes.filter (clsPred valid))
    ∧ keysA (modes.foldl (clsStep layer batch encoded valid etm) acc).2.2
        = keysA acc.2.2 ++ keysA (modes.filter (clsPred valid)) := by
  induction modes generalizing acc with
  | nil => simp [keysA]
  | cons p modes ih =>
    rw [List.foldl_cons]
    rcases clsStep_shape layer batch encoded valid etm acc p with
      ⟨hp, hstep⟩ | ⟨hp, lo, di, la, hstep⟩
    · rw [hstep, List.filter_cons_of_neg (by simp [hp])]
      exact ih acc
    · rw [hstep, List.filter_cons_of_pos hp]
      obtain ⟨i1, i2, i3⟩ :=
        ih (acc.1 ++ [(p.1, lo)], acc.2.1 ++ [(p.1, di)], acc.2.2 ++ [(p.1, la)])
      refine ⟨?_, ?_, ?_⟩
      · rw [i1]
        simp [keysA_append, keysA]
      · rw [i2]
        simp [keysA_append, keysA]
      · rw [i3]
        simp [keysA_append, keysA]

theorem cls_outputs_keys {B S K H : ℕ} (layer : OutputLayer H) (batch : Batch B S K)
    (encoded : Fin B → Fin S → Fin H → Val) (valid : List String)
    (etm : Option (List (String × (Fin B → Fin S → Bool)))) :
    keysA (get_classification_outputs layer batch encoded valid etm).1
        = keysA (layer.classification_mode_per_measurement.filter (clsPred valid))
    ∧ keysA (get_classification_outputs layer batch encoded valid etm).2.1
        = keysA (layer.classification_mode_per_measurement.filter (clsPred valid))
    ∧ keysA (get_classification_outputs layer batch encoded valid etm).2.2
        = keysA (layer.classification_mode_per_measurement.filter (clsPred valid)) := by
  unfold get_classification_outputs
  by_cases hv : valid.isEmpty
  · rw [if_pos hv]
    have : layer.classification_mode_per_measurement.filter (clsPred valid) = [] := by
      apply List.filter_eq_nil_iff.mpr
      intro p hp
      have : valid = [] := List.isEmpty_iff.mp hv
      simp [clsPred, this]
    rw [this]
    exact ⟨rfl, rfl, rfl⟩
  · rw [if_neg hv]
    simpa [keysA] using clsFold_keys layer batch encoded valid etm
      layer.classification_mode_per_measurement ([], [], [])

theorem regStep_shape {B S K H : ℕ} (layer : OutputLayer H) (batch : Batch B S K)
    (encoded : Fin B → Fin S → Fin H → Val) (valid : List String) (is_generation : Bool)
    (etm : Option (List (String × (Fin B → Fin S → Bool))))
    (acc : RegOuts B S K H) (m : String) :
    (m ∉ valid ∧ regStep layer batch encoded valid is_generation etm acc m = acc)
    ∨ (m ∈ valid ∧ ∃ lo la idx,
        regStep layer batch encoded valid is_generation etm acc m
          = ((if is_generation then acc.1 else acc.1 ++ [(m, lo)]),
             acc.2.1 ++ [(m, (⟨encoded, if is_generation then none else some idx⟩ :
               RegDist B S K H))],
             acc.2.2.1 ++ [(m, la)], acc.2.2.2 ++ [(m, idx)])) := by
  by_cases hv : m ∈ valid
  · right
    refine ⟨hv, ?_⟩
    unfold regStep
    rw [if_neg (not_not_intro hv)]
    exact ⟨_, _, _, rfl⟩
  · left
    refine ⟨hv, ?_⟩
    unfold regStep
    rw [if_pos hv]

theorem regFold_keys {B S K H : ℕ} (layer : OutputLayer H) (batch : Batch B S K)
    (encoded : Fin B → Fin S → Fin H → Val) (valid : List String) (is_generation : Bool)
    (etm : Option (List (String × (Fin B → Fin S → Bool))))
    (ms : List String) (acc : RegOuts B S K H) :
    keysA (ms.foldl (regStep layer batch encoded valid is_generation etm) acc).2.1
        = keysA acc.2.1 ++ ms.filter (fun m => decide (m ∈ valid))
    ∧ keysA (ms.foldl (regStep layer batch encoded valid is_generation etm) acc).2.2.1
        = keysA acc.2.2.1 ++ ms.filter (fun m => decide (m ∈ valid))
    ∧ keysA (ms.foldl (regStep layer batch encoded valid is_generation etm) acc).2.2.2
        = keysA acc.2.2.2 ++ ms.filter (fun m => decide (m ∈ valid))
    ∧ (is_generation = true →
        (ms.foldl (regStep layer batch encoded valid is_generation etm) acc).1 = acc.1)
    ∧ (is_generation = false →
        keysA (ms.foldl (regStep layer batch encoded valid is_generation etm) acc).1
          = keysA acc.1 ++ ms.filter (fun m => decide (m ∈ valid))) := by
  induction ms generalizing acc with
  | nil => simp [keysA]
  | cons m ms ih =>
    rw [List.foldl_cons]
    rcases regStep_shape layer batch encoded valid is_generation etm acc m with
      ⟨hm, hstep⟩ | ⟨hm, lo, la, idx, hstep⟩
    · rw [hstep, List.filter_cons_of_neg (by simpa using hm)]
      exact ih acc
    · rw [hstep, List.filter_cons_of_pos (by simpa using hm)]
      by_cases hgen : is_generation = true
      · rw [if_pos hgen]
        obtain ⟨i1, i2, i3, i4, -⟩ := ih (acc.1,
          acc.2.1 ++ [(m, (⟨encoded, if is_generation then none else some idx⟩ :
            RegDist B S K H))],
          acc.2.2.1 ++ [(m, la)], acc.2.2.2 ++ [(m, idx)])
        refine ⟨by rw [i1]; simp [keysA_append, keysA],
          by rw [i2]; simp [keysA_append, keysA],
          by rw [i3]; simp [keysA_append, keysA],
          fun _ => i4 hgen, ?_⟩
        intro hc
        rw [hc] at hgen
        cases hgen
      · have hg : is_generation = false := by simpa using hgen
        rw [if_neg hgen]
        obtain ⟨i1, i2, i3, -, i5⟩ := ih (acc.1 ++ [(m, lo)],
          acc.2.1 ++ [(m, (⟨encoded, if is_generation then none else some idx⟩ :
            RegDist B S K H))],
          acc.2.2.1 ++ [(m, la)], acc.2.2.2 ++ [(m, idx)])
        refine ⟨by rw [i1]; simp [keysA_append, keysA],
          by rw [i2]; simp [keysA_append, keysA],
          by rw [i3]; simp [keysA_append, keysA],
          by intro hc; exact absurd hc hgen, ?_⟩
        intro hc
        rw [i5 hg]
        simp [keysA_append, keysA]

theorem reg_outputs_keys {B S K H : ℕ} (layer : OutputLayer H) (batch : Batch B S K)
    (encoded : Fin B → Fin S → Fin H → Val) (valid : List String) (is_generation : Bool)
    (etm : Option (List (String × (Fin B → Fin S → Bool)))) :
    keysA (get_regression_outputs layer batch encoded valid is_generation etm).2.1
        = (layer.config.measurements_per_generative_mode
            DataModality.multivariate_regression).filter (fun m => decide (m ∈ valid))
    ∧ keysA (get_regression_outputs layer batch encoded valid is_generation etm).2.2.1
        = (layer.config.measurements_per_generative_mode
            DataModality.multivariate_regression).filter (fun m => decide (m ∈ valid))
    ∧ keysA (get_regression_outputs layer batch encoded valid is_generation etm).2.2.2
        = (layer.config.measurements_per_generative_mode
            DataModality.multivariate_regression).filter (fun m => decide (m ∈ valid))
    ∧ (is_generation = false →
        keysA (get_regression_outputs layer batch encoded valid is_generation etm).1
          = (layer.config.measurements_per_generative_mode
              DataModality.multivariate_regression).filter (fun m => decide (m ∈ valid))) := by
  unfold get_regression_outputs
  by_cases hv : valid.isEmpty
  · rw [if_pos hv]
    have hfil : (layer.config.measurements_per_generative_mode
        DataModality.multivariate_regression).filter (fun m => decide (m ∈ valid)) = [] := by
      apply List.filter_eq_nil_iff.mpr
      intro m hm
      have : valid = [] := List.isEmpty_iff.mp hv
      simp [this]
    rw [hfil]
    exact ⟨rfl, rfl, rfl, fun _ => rfl⟩
  · rw [if_neg hv]
    obtain ⟨i1, i2, i3, -, i5⟩ := regFold_keys layer batch encoded valid is_generation etm
      (layer.config.measurements_per_generative_mode DataModality.multivariate_regression)
      ([], [], [], [])
    exact ⟨by simpa [keysA] using i1, by simpa [keysA] using i2,
      by simpa [keysA] using i3, fun h => by simpa [keysA] using i5 h⟩

theorem keysA_filter_sublist {α : Type} (l : List (String × α)) (p : String × α → Bool) :
    List.Sublist (keysA (l.filter p)) (keysA l) :=
  List.Sublist.map _ (List.filter_sublist _)

theorem regFold_dist_X {B S K H : ℕ} (layer : OutputLayer H) (batch : Batch B S K)
    (encoded : Fin B → Fin S → Fin H → Val) (valid : List String) (is_generation : Bool)
    (etm : Option (List (String × (Fin B → Fin S → Bool))))
    (ms : List String) (acc : RegOuts B S K H) :
    ∀ p ∈ (ms.foldl (regStep layer batch encoded valid is_generation etm) acc).2.1,
      p ∈ acc.2.1 ∨ p.2.X = encoded := by
  induction ms generalizing acc with
  | nil => exact fun p hp => Or.inl hp
  | cons m ms ih =>
    rw [List.foldl_cons]
    rcases regStep_shape layer batch encoded valid is_generation etm acc m with
      ⟨-, hstep⟩ | ⟨-, lo, la, idx, hstep⟩
    · rw [hstep]
      exact ih acc
    · rw [hstep]
      intro p hp
      rcases ih _ p hp with hmem | hX
      · rcases List.mem_append.mp hmem with hmem | hmem
        · exact Or.inl hmem
        · right
          rw [List.mem_singleton.mp hmem]
      · exact Or.inr hX

theorem reg_outputs_dist_X {B S K H : ℕ} (layer : OutputLayer H) (batch : Batch B S K)
    (encoded : Fin B → Fin S → Fin H → Val) (valid : List String) (is_generation : Bool)
    (etm : Option (List (String × (Fin B → Fin S → Bool)))) :
    ∀ p ∈ (get_regression_outputs layer batch encoded valid is_generation etm).2.1,
      p.2.X = encoded := by
  unfold get_regression_outputs
  by_cases hv : valid.isEmpty
  · rw [if_pos hv]
    intro p hp
    cases hp
  · rw [if_neg hv]
    intro p hp
    rcases regFold_dist_X layer batch encoded valid is_generation etm _ _ p hp with hmem | hX
    · cases hmem
    · exact hX

/-- In the conditionally-independent mode, `forward` reduces to the
shifted-encoding head calls followed by the TTE computation on the raw
encodings. -/
theorem forward_ci_eq {B S K H : ℕ} (layer : OutputLayer H) (batch : Batch B S K)
    (e : Fin B → Fin S → Fin H → Val) (is_generation : Bool)
    (hmode : layer.config.structured_event_processing_mode
      = StructuredEventProcessingMode.conditionally_independent) :
    forward layer batch (Encoded.ci e) is_generation
      = match get_TTE_outputs layer.heads batch e with
        | Except.error err => Except.error (ForwardErr.tte err)
        | Except.ok tte => Except.ok (assembleOutput batch is_generation
            (accumHeads layer batch (get_event_type_mask_per_measurement layer.config batch)
              is_generation (ciShift e)
              (keysA layer.classification_mode_per_measurement,
               layer.config.measurements_per_generative_mode
                 DataModality.multivariate_regression)
              ⟨[], [], [], [], [], [], []⟩)
            (get_event_type_mask_per_measurement layer.config batch) tte) := by
  unfold forward
  rw [hmode]

/-- C2: in the conditionally-independent mode, the tensor
`for_event_contents_prediction` fed to every classification and
regression head is, at sequence position `0`, the all-zero vector
(regardless of batch content), and at every position `s ≥ 1` exactly the
encoder output at position `s-1`; the classification and regression
outputs of `forward` are exactly those head calls on this shifted tensor,
and every returned regression distribution was built from the shifted
tensor. -/
theorem claim_C2 {B S K H : ℕ} (layer : OutputLayer H) (batch : Batch B S K)
    (e : Fin B → Fin S → Fin H → Val) (is_generation : Bool) (out : ModelOutput B S K H)
    (hmode : layer.config.structured_event_processing_mode
      = StructuredEventProcessingMode.conditionally_independent)
    (hclsnd : (keysA layer.classification_mode_per_measurement).Nodup)
    (hregnd : (layer.config.measurements_per_generative_mode
        DataModality.multivariate_regression).Nodup)
    (hok : forward layer batch (Encoded.ci e) is_generation = Except.ok out) :
    (∀ (b : Fin B) (s : Fin S) (h : Fin H), s.val = 0 → ciShift e b s h = Val.fin 0)
    ∧ (∀ (b : Fin B) (s : Fin S) (h : Fin H) (hs : 1 ≤ s.val),
        ciShift e b s h = e b ⟨s.val - 1, lt_of_le_of_lt (Nat.sub_le _ _) s.isLt⟩ h)
    ∧ out.preds_classification
        = (get_classification_outputs layer batch (ciShift e)
            (keysA layer.classification_mode_per_measurement)
            (get_event_type_mask_per_measurement layer.config batch)).2.1
    ∧ out.preds_regression
        = (get_regression_outputs layer batch (ciShift e)
            (layer.config.measurements_per_generative_mode
              DataModality.multivariate_regression) is_generation
            (get_event_type_mask_per_measurement layer.config batch)).2.1
    ∧ ∀ p ∈ out.preds_regression, p.2.X = ciShift e := by
  rw [forward_ci_eq layer batch e is_generation hmode] at hok
  have h1 : ∀ (b : Fin B) (s : Fin S) (h : Fin H), s.val = 0 → ciShift e b s h = Val.fin 0 := by
    intro b s h hs
    unfold ciShift
    rw [dif_pos hs]
  have h2 : ∀ (b : Fin B) (s : Fin S) (h : Fin H) (hs : 1 ≤ s.val),
      ciShift e b s h = e b ⟨s.val - 1, lt_of_le_of_lt (Nat.sub_le _ _) s.isLt⟩ h := by
    intro b s h hs
    unfold ciShift
    rw [dif_neg (by omega)]
  cases htte : get_TTE_outputs layer.heads batch e with
  | error err =>
    rw [htte] at hok
    cases hok
  | ok tte =>
    rw [htte] at hok
    obtain rfl := (Except.ok.inj hok).symm
    have hclsout := cls_outputs_keys layer batch (ciShift e)
      (keysA layer.classification_mode_per_measurement)
      (get_event_type_mask_per_measurement layer.config batch)
    have hclsnodup : (keysA (get_classification_outputs layer batch (ciShift e)
        (keysA layer.classification_mode_per_measurement)
        (get_event_type_mask_per_measurement layer.config batch)).2.1).Nodup := by
      rw [hclsout.2.1]
      exact List.Nodup.sublist (keysA_filter_sublist _ _) hclsnd
    have hregout := reg_outputs_keys layer batch (ciShift e)
      (layer.config.measurements_per_generative_mode DataModality.multivariate_regression)
      is_generation (get_event_type_mask_per_measurement layer.config batch)
    have hregnodup : (keysA (get_regression_outputs layer batch (ciShift e)
        (layer.config.measurements_per_generative_mode DataModality.multivariate_regression)
        is_generation
        (get_event_type_mask_per_measurement layer.config batch)).2.1).Nodup := by
      rw [hregout.1]
      exact List.Nodup.sublist (List.filter_sublist _) hregnd
    refine ⟨h1, h2, ?_, ?_, ?_⟩
    · show dictUpdate [] _ = _
      exact dictUpdate_nil _ hclsnodup
    · show dictUpdate [] _ = _
      exact dictUpdate_nil _ hregnodup
    · show ∀ p ∈ dictUpdate [] _, _
      rw [dictUpdate_nil _ hregnodup]
      exact reg_outputs_dist_X layer batch (ciShift e) _ is_generation _

/-- A minimal conditionally-independent configuration with no
measurements. -/
def cfgC2 : ModelConfig where
  vocab_sizes_by_measurement := []
  vocab_offsets_by_measurement := []
  measurements_idxmap := []
  measurements_per_generative_mode := fun _ => []
  event_types_per_measurement := some []
  event_types_idxmap := []
  measurements_per_dep_graph_level := none
  structured_event_processing_mode := StructuredEventProcessingMode.conditionally_independent
  TTE_generation_layer_type := TimeToEventGenerationHeadType.exponential
  vocab_size := 1

/-- The corresponding constructed output layer. -/
def layerC2 : OutputLayer 1 := ⟨cfgC2, trivialHeads 1 cfgC2.vocab_size, []⟩

/-- A `B=1, S=2, K=1` batch with both events observed at times `0` and `1`. -/
def batchC2 : Batch 1 2 1 where
  dynamic_indices := fun _ _ _ => 0
  dynamic_measurement_indices := fun _ _ _ => 0
  dynamic_values := fun _ _ _ => Val.fin 0
  dynamic_values_mask := fun _ _ _ => false
  event_mask := fun _ _ => true
  time := fun _ s => if s.val = 0 then Val.fin 0 else Val.fin 1

/-- A concrete `[1,2,1]` encoding. -/
def encC2 : Fin 1 → Fin 2 → Fin 1 → Val := fun _ s _ => Val.fin (s.val + 1)

/-- The output `forward` produces on `batchC2` / `encC2` in training mode. -/
def outC2 : ModelOutput 1 2 1 1 where
  loss := some (Val.fin 0)
  losses_classification := some []
  losses_regression := some []
  losses_time_to_event := some (Val.fin 0)
  preds_classification := []
  preds_regression := []
  preds_regression_indices := some []
  preds_time_to_event := ⟨encC2⟩
  labels_classification := some []
  labels_regression := some []
  labels_time_to_event := some (TTE_true batchC2)
  event_type_mask_per_measurement := some []
  event_mask := batchC2.event_mask
  dynamic_values_mask := batchC2.dynamic_values_mask

theorem claim_C2_witness :
    forward layerC2 batchC2 (Encoded.ci encC2) false = Except.ok outC2
    ∧ ciShift encC2 0 0 0 = Val.fin 0
    ∧ ciShift encC2 0 1 0
        = encC2 0 ⟨(1 : Fin 2).val - 1, lt_of_le_of_lt (Nat.sub_le _ _) (1 : Fin 2).isLt⟩ 0
    ∧ outC2.preds_classification
        = (get_classification_outputs layerC2 batchC2 (ciShift encC2)
            (keysA layerC2.classification_mode_per_measurement)
            (get_event_type_mask_per_measurement layerC2.config batchC2)).2.1 := by
  have hok : forward layerC2 batchC2 (Encoded.ci encC2) false = Except.ok outC2 := rfl
  have h := claim_C2 layerC2 batchC2 encC2 false outC2 rfl List.nodup_nil List.nodup_nil hok
  exact ⟨hok, h.1 0 0 0 rfl, h.2.1 0 1 0 (by decide), h.2.2.1⟩

theorem Val.add_fin_zero (x : Val) : x.add (Val.fin 0) = x := by
  cases x <;> simp [Val.add, qadd_eq]

theorem Val.mul_ofBool_false {x : Val} (h : x.isFinite = true) :
    x.mul (Val.ofBool false) = Val.fin 0 := by
  cases x with
  | fin q => simp [Val.mul, Val.ofBool, qmul_eq]
  | pinf => cases h
  | ninf => cases h
  | nan => cases h

theorem vsum_append_single (a : List Val) (y : Val) :
    vsum (a ++ [y]) = (vsum a).add y := by
  rw [vsum, List.foldl_append]
  rfl

theorem TTE_obs_mask_exp_castSucc {B n K : ℕ} (batch : Batch B (n + 1) K) (b : Fin B)
    (j : Fin n) :
    TTE_obs_mask_exp batch b (Fin.castSucc j) = TTE_obs_mask batch b j := by
  unfold TTE_obs_mask_exp
  rw [dif_pos (show (Fin.castSucc j).val < n + 1 - 1 from by simpa using j.isLt)]
  exact congrArg (TTE_obs_mask batch b) (Fin.ext (by simp))

theorem TTE_obs_mask_exp_last {B n K : ℕ} (batch : Batch B (n + 1) K) (b : Fin B) :
    TTE_obs_mask_exp batch b (Fin.last n) = false := by
  unfold TTE_obs_mask_exp
  rw [dif_neg (by simp)]

theorem TTE_true_exp_last {B n K : ℕ} (batch : Batch B (n + 1) K) (b : Fin B) :
    TTE_true_exp batch b (Fin.last n) = Val.fin 1 := by
  unfold TTE_true_exp
  rw [dif_neg (by simp)]

/-- C3: for every batch with `S` sequence positions (and a TTE layer with
a finite log-density at the appended placeholder), the returned TTE
distribution is built from all `S` positions of the encodings (its random
variables have shape `[B,S]`), the expanded target tensor has `S` entries
of which the last is the placeholder `1.0` excluded from the observation
mask, the first `S-1` entries equal `time[:,1:] - time[:,:-1]` wherever
both endpoint events are unmasked and `1.0` (mask-excluded) otherwise,
and the returned average log-likelihood ranges only over the `S-1` real
inter-event durations. -/
theorem claim_C3 {B S K H V : ℕ} (heads : Heads H V) (batch : Batch B S K)
    (encoded : Fin B → Fin S → Fin H → Val) (hS : 0 < S)
    (res : Val × TTEDist B S H × (Fin B → Fin (S - 1) → Val))
    (hok : get_TTE_outputs heads batch encoded = Except.ok res)
    (hfin : ∀ b : Fin B,
      (TTE_LL heads batch encoded b ⟨S - 1, by omega⟩).isFinite = true) :
    res.2.1.X = encoded
    ∧ (∀ b : Fin B, TTE_true_exp batch b ⟨S - 1, by omega⟩ = Val.fin 1)
    ∧ (∀ b : Fin B, TTE_obs_mask_exp batch b ⟨S - 1, by omega⟩ = false)
    ∧ (∀ (b : Fin B) (j : Fin (S - 1)),
        TTE_true_exp batch b (finLow j)
          = if batch.event_mask b (finHigh j) && batch.event_mask b (finLow j)
            then (batch.time b (finHigh j)).sub (batch.time b (finLow j))
            else Val.fin 1)
    ∧ (∀ (b : Fin B) (j : Fin (S - 1)),
        TTE_obs_mask_exp batch b (finLow j)
          = (batch.event_mask b (finHigh j) && batch.event_mask b (finLow j)))
    ∧ res.1 = vmean ((List.finRange B).map fun b =>
        (maskedSum
            (finRow fun j : Fin (S - 1) => TTE_LL heads batch encoded b (finLow j))
            (finRowB (TTE_obs_mask batch b))).div
          (Val.fin (maskCount (finRowB (TTE_obs_mask batch b))))) := by
  obtain ⟨n, rfl⟩ : ∃ n, S = n + 1 := ⟨S - 1, (Nat.succ_pred_eq_of_pos hS).symm⟩
  unfold get_TTE_outputs at hok
  by_cases h1 : anyNan (fun b j => TTE_true_exp batch b j) = true
  · rw [if_pos h1] at hok
    cases hok
  · rw [if_neg h1] at hok
    by_cases h2 : anyNan (TTE_LL heads batch encoded) = true
    · rw [if_pos h2] at hok
      cases hok
    · rw [if_neg h2] at hok
      by_cases h3 : ((List.finRange B).any
          (fun b => maskCount (finRowB (TTE_obs_mask_exp batch b)) = 0)) = true
      · rw [if_pos h3] at hok
        cases hok
      · rw [if_neg h3] at hok
        obtain rfl := (Except.ok.inj hok).symm
        have hcast : ∀ (b : Fin B) (j : Fin n),
            TTE_true_exp batch b (@finLow (n + 1) j)
              = if TTE_obs_mask batch b j then TTE_delta batch b j else Val.fin 1 := by
          intro b j
          unfold TTE_true_exp
          rw [dif_pos (show (@finLow (n + 1) j).val < n + 1 - 1 from j.isLt)]
          rfl
        refine ⟨rfl, ?_, ?_, ?_, ?_, ?_⟩
        · intro b
          exact TTE_true_exp_last batch b
        · intro b
          exact TTE_obs_mask_exp_last batch b
        · intro b j
          exact hcast b j
        · intro b j
          exact TTE_obs_mask_exp_castSucc batch b j
        · show vmean _ = vmean _
          apply congrArg vmean
          apply List.map_congr_left
          intro b _
          have hrow : finRowB (TTE_obs_mask_exp batch b)
              = finRowB (TTE_obs_mask batch b) ++ [false] := by
            rw [finRowB, List.finRange_succ_last, List.map_append, List.map_map]
            apply congrArg₂ _ ?_ ?_
            · apply List.map_congr_left
              intro j _
              exact TTE_obs_mask_exp_castSucc batch b j
            · simp [TTE_obs_mask_exp_last batch b]
          have hll : finRow (TTE_LL heads batch encoded b)
              = finRow (fun j : Fin n => TTE_LL heads batch encoded b (finLow j))
                ++ [TTE_LL heads batch encoded b (Fin.last n)] := by
            rw [finRow, List.finRange_succ_last, List.map_append, List.map_map]
            rfl
          have hsum : maskedSum (finRow (TTE_LL heads batch encoded b))
              (finRowB (TTE_obs_mask_exp batch b))
              = maskedSum
                (finRow fun j : Fin n => TTE_LL heads batch encoded b (finLow j))
                (finRowB (TTE_obs_mask batch b)) := by
            rw [hrow, hll]
            unfold maskedSum
            rw [List.zipWith_append _ _ _ _ _ (by simp [finRow, finRowB])]
            show vsum (_ ++ [(TTE_LL heads batch encoded b (Fin.last n)).mul
              (Val.ofBool false)]) = _
            have hfin2 : (TTE_LL heads batch encoded b (Fin.last n)).isFinite = true :=
              hfin b
            rw [vsum_append_single, Val.mul_ofBool_false hfin2, Val.add_fin_zero]
          have hcount : maskCount (finRowB (TTE_obs_mask_exp batch b))
              = maskCount (finRowB (TTE_obs_mask batch b)) := by
            rw [hrow]
            unfold maskCount
            simp
          rw [hsum, hcount]
          rfl

theorem claim_C3_witness :
    get_TTE_outputs layerC2.heads batchC2 encC2
        = Except.ok (Val.fin 0, ⟨encC2⟩, TTE_true batchC2)
    ∧ TTE_obs_mask_exp batchC2 0 ⟨2 - 1, by omega⟩ = false
    ∧ TTE_true_exp batchC2 0 (finLow (0 : Fin (2 - 1)))
        = (if batchC2.event_mask 0 (finHigh (0 : Fin (2 - 1)))
              && batchC2.event_mask 0 (finLow (0 : Fin (2 - 1)))
          then (batchC2.time 0 (finHigh (0 : Fin (2 - 1)))).sub
            (batchC2.time 0 (finLow (0 : Fin (2 - 1))))
          else Val.fin 1)
    ∧ (Val.fin 0) = vmean ((List.finRange 1).map fun b =>
        (maskedSum
            (finRow fun j : Fin (2 - 1) => TTE_LL layerC2.heads batchC2 encC2 b (finLow j))
            (finRowB (TTE_obs_mask batchC2 b))).div
          (Val.fin (maskCount (finRowB (TTE_obs_mask batchC2 b))))) := by
  have hok : get_TTE_outputs layerC2.heads batchC2 encC2
      = Except.ok (Val.fin 0, ⟨encC2⟩, TTE_true batchC2) := rfl
  have h := claim_C3 layerC2.heads batchC2 encC2 (by omega) _ hok (fun b => rfl)
  exact ⟨hok, h.2.2.1 0, h.2.2.2.1 0 0, h.2.2.2.2.2⟩

theorem anyNan_iff {B S : ℕ} (x : Fin B → Fin S → Val) :
    anyNan x = true ↔ ∃ b j, (x b j).isnan = true := by
  unfold anyNan
  simp [List.any_eq_true, List.mem_finRange]

/-- C4 counterexample: heads for a spec-modelled exponential TTE layer
with rate `1` (`generative_layers.py` is absent from `src/`; per spec
§4.5 the exponential head has log-density `log rate - rate * t`, which at
rate `1` is exactly `-t`). -/
def headsC4 : Heads 1 1 :=
  ⟨fun _ t => t.neg, fun _ _ => Val.fin 0, fun _ _ => Val.fin 0,
    fun _ _ => Val.fin 0, fun _ _ _ _ => Val.fin 0⟩

/-- A batch whose second event time is `+inf`: the observed duration, the
expanded TTE target and the log-likelihood are all non-finite yet none is
NaN. -/
def batchC4 : Batch 1 2 1 where
  dynamic_indices := fun _ _ _ => 0
  dynamic_measurement_indices := fun _ _ _ => 0
  dynamic_values := fun _ _ _ => Val.fin 0
  dynamic_values_mask := fun _ _ _ => false
  event_mask := fun _ _ => true
  time := fun _ s => if s.val = 0 then Val.fin 0 else Val.pinf

/-- A constant zero encoding for the C4 batch. -/
def encC4 : Fin 1 → Fin 2 → Fin 1 → Val := fun _ _ _ => Val.fin 0

/-- C4 counterexample: on `batchC4` the expanded TTE target contains the
non-finite value `+inf` (an intermediate quantity that is not a finite
number), yet `get_TTE_outputs` does **not** raise: the `isnan` checks of
model.py:130-137 pass (`+inf` is not NaN) and the function silently
returns the non-finite average log-likelihood `-inf` instead of aborting,
refuting the claim that any non-finite intermediate aborts the step. -/
theorem claim_C4_counterexample :
    (TTE_true_exp batchC4 0 ⟨0, by omega⟩).isFinite = false
    ∧ get_TTE_outputs headsC4 batchC4 encC4
        = Except.ok (Val.ninf, ⟨encC4⟩, TTE_true batchC4) := ⟨rfl, rfl⟩

/-- C4 (amended): `get_TTE_outputs` raises at forward-pass time, with the
offending batch carried in the error, exactly when some entry of the
expanded TTE target or of the TTE log-likelihood is NaN or some sequence
in the batch has zero observed durations; NaN and zero-duration
conditions are never silently converted to a default or zero loss.
(Non-finite but non-NaN intermediates — infinities — are *not* detected,
see `claim_C4_counterexample`.) -/
theorem claim_C4_amended {B S K H V : ℕ} (heads : Heads H V) (batch : Batch B S K)
    (encoded : Fin B → Fin S → Fin H → Val) :
    (((∃ b j, (TTE_true_exp batch b j).isnan = true)
      ∨ (∃ b j, (TTE_LL heads batch encoded b j).isnan = true)
      ∨ (∃ b, maskCount (finRowB (TTE_obs_mask_exp batch b)) = 0))
      ↔ ∃ e, get_TTE_outputs heads batch encoded = Except.error e)
    ∧ (∀ e, get_TTE_outputs heads batch encoded = Except.error e →
        e = TTEErr.nan_TTE_true_exp batch ∨ e = TTEErr.nan_TTE_LL batch
          ∨ e = TTEErr.no_observed_TTE batch) := by
  have hzero : ((List.finRange B).any
        (fun b => maskCount (finRowB (TTE_obs_mask_exp batch b)) = 0)) = true
      ↔ ∃ b, maskCount (finRowB (TTE_obs_mask_exp batch b)) = 0 := by
    simp [List.any_eq_true, List.mem_finRange]
  unfold get_TTE_outputs
  by_cases h1 : anyNan (fun b j => TTE_true_exp batch b j) = true
  · rw [if_pos h1]
    refine ⟨⟨fun _ => ⟨_, rfl⟩, fun _ => Or.inl ((anyNan_iff _).mp h1)⟩, ?_⟩
    intro e he
    exact Or.inl (Except.error.inj he).symm
  · rw [if_neg h1]
    by_cases h2 : anyNan (TTE_LL heads batch encoded) = true
    · rw [if_pos h2]
      refine ⟨⟨fun _ => ⟨_, rfl⟩, fun _ => Or.inr (Or.inl ((anyNan_iff _).mp h2))⟩, ?_⟩
      intro e he
      exact Or.inr (Or.inl (Except.error.inj he).symm)
    · rw [if_neg h2]
      by_cases h3 : ((List.finRange B).any
          (fun b => maskCount (finRowB (TTE_obs_mask_exp batch b)) = 0)) = true
      · rw [if_pos h3]
        refine ⟨⟨fun _ => ⟨_, rfl⟩, fun _ => Or.inr (Or.inr (hzero.mp h3))⟩, ?_⟩
        intro e he
        exact Or.inr (Or.inr (Except.error.inj he).symm)
      · rw [if_neg h3]
        constructor
        · constructor
          · intro hcond
            exfalso
            rcases hcond with hc | hc | hc
            · exact h1 ((anyNan_iff _).mpr hc)
            · exact h2 ((anyNan_iff _).mpr hc)
            · exact h3 (hzero.mpr hc)
          · intro hex
            obtain ⟨e, he⟩ := hex
            cases he
        · intro e he
          cases he

/-- A `S = 1` batch: the single expanded observation mask entry is the
appended `False`, so every sequence has zero observed durations. -/
def batchW4 : Batch 1 1 1 where
  dynamic_indices := fun _ _ _ => 0
  dynamic_measurement_indices := fun _ _ _ => 0
  dynamic_values := fun _ _ _ => Val.fin 0
  dynamic_values_mask := fun _ _ _ => false
  event_mask := fun _ _ => true
  time := fun _ _ => Val.fin 0

theorem claim_C4_witness :
    TTEErr.no_observed_TTE batchW4 = TTEErr.nan_TTE_true_exp batchW4
    ∨ TTEErr.no_observed_TTE batchW4 = TTEErr.nan_TTE_LL batchW4
    ∨ TTEErr.no_observed_TTE batchW4 = TTEErr.no_observed_TTE batchW4 :=
  (claim_C4_amended (trivialHeads 1 1) batchW4 (fun _ _ _ => Val.fin 0)).2 _ rfl

theorem exceptBindPure_isOk {ε α β γ : Type} (x : Except ε α) (f : α → β) (g : α → γ) :
    (x >>= fun v => pure (f v) : Except ε β).isOk
      = (x >>= fun v => pure (g v) : Except ε γ).isOk := by
  cases x <;> rfl

/-- Arguments with overlapping and non-monotonic vocabulary offsets:
measurement `a` occupies `[3, 8)` and measurement `b` occupies `[0, 5)`,
declared in that (decreasing) order. -/
def argsC7 : ConfigArgs :=
  { vocab_sizes_by_measurement := some [("a", 5), ("b", 5)]
    vocab_offsets_by_measurement := some [("a", 3), ("b", 0)]
    structured_event_processing_mode := StructuredEventProcessingMode.conditionally_independent
    dep_graph_window_size := none
    do_full_block_in_dep_graph_attention := none
    do_full_block_in_seq_attention := none
    do_add_temporal_position_embeddings_to_data_embeddings := none }

/-- The configuration `mkConfig` accepts for `argsC7`. -/
def cfgC7 : ModelConfig where
  vocab_sizes_by_measurement := [("a", 5), ("b", 5)]
  vocab_offsets_by_measurement := [("a", 3), ("b", 0)]
  measurements_idxmap := []
  measurements_per_generative_mode := fun _ => []
  event_types_per_measurement := some []
  event_types_idxmap := []
  measurements_per_dep_graph_level := none
  structured_event_processing_mode := StructuredEventProcessingMode.conditionally_independent
  TTE_generation_layer_type := TimeToEventGenerationHeadType.exponential
  vocab_size := 10

/-- C7 counterexample: a configuration whose vocabulary offsets are both
overlapping (`[3,8) ∩ [0,5) ≠ ∅`) and non-monotonic (declared `3` before
`0`) is accepted without error at configuration-construction time, and
the output layer also builds without error — refuting the claim that
such a registry raises a fatal configuration error at model-build time. -/
theorem claim_C7_counterexample :
    mkConfig argsC7 = Except.ok cfgC7
    ∧ mkOutputLayer cfgC7 (trivialHeads 1 cfgC7.vocab_size)
        = some ⟨cfgC7, trivialHeads 1 cfgC7.vocab_size, []⟩
    ∧ lookupA cfgC7.vocab_offsets_by_measurement "a" = some 3
    ∧ lookupA cfgC7.vocab_offsets_by_measurement "b" = some 0
    ∧ lookupA cfgC7.vocab_sizes_by_measurement "b" = some 5
    ∧ (0 : ℤ) ≤ 3 ∧ (3 : ℤ) < 0 + 5 :=
  ⟨rfl, rfl, rfl, rfl, rfl, by decide, by decide⟩

/-- C7 (amended): neither the configuration constructor nor the model
constructor inspects the vocabulary offsets: construction succeeds or
fails identically for *any* offsets/sizes dictionaries, and an accepted
configuration stores the offsets exactly as given (the derived
`vocab_end` is only computed at batch-processing time inside
`get_classification_outputs`, model.py:223-226). -/
theorem claim_C7_amended (a : ConfigArgs) (so : Option (List (String × ℤ)))
    (ss : Option (List (String × ℕ))) :
    validateConfigArgs
        { a with
          vocab_offsets_by_measurement := so
          vocab_sizes_by_measurement := ss } = validateConfigArgs a
    ∧ (mkConfig
        { a with
          vocab_offsets_by_measurement := so
          vocab_sizes_by_measurement := ss }).isOk = (mkConfig a).isOk
    ∧ (∀ c, mkConfig a = Except.ok c →
        c.vocab_offsets_by_measurement = a.vocab_offsets_by_measurement.getD [])
    ∧ (∀ (H2 : ℕ) (c : ModelConfig) (heads : Heads H2 c.vocab_size)
        (co : List (String × ℤ)),
        (mkOutputLayer { c with vocab_offsets_by_measurement := co } heads).isSome
          = (mkOutputLayer c heads).isSome) := by
  refine ⟨rfl, ?_, ?_, ?_⟩
  · exact exceptBindPure_isOk (validateConfigArgs a) _ _
  · intro c hc
    unfold mkConfig at hc
    cases hv : validateConfigArgs a with
    | error e =>
      rw [hv] at hc
      cases hc
    | ok v =>
      rw [hv] at hc
      obtain rfl := (Except.ok.inj hc).symm
      rfl
  · intro H2 c heads co
    show ((mkClassificationModes c.measurements_per_generative_mode).map _).isSome
      = ((mkClassificationModes c.measurements_per_generative_mode).map _).isSome
    cases hmk : mkClassificationModes c.measurements_per_generative_mode <;> rfl

/-- Arguments for a nested-attention model whose dependency-graph
partition lists measurement `m` in two declared levels. -/
def argsC8 : ConfigArgs :=
  { measurements_per_dep_graph_level :=
      some [[], [MeasEntry.plain "m"], [MeasEntry.plain "m"]] }

/-- The configuration `mkConfig` accepts for `argsC8`. -/
def cfgC8 : ModelConfig where
  vocab_sizes_by_measurement := []
  vocab_offsets_by_measurement := []
  measurements_idxmap := []
  measurements_per_generative_mode := fun _ => []
  event_types_per_measurement := some []
  event_types_idxmap := []
  measurements_per_dep_graph_level :=
    some [[], [MeasEntry.plain "m"], [MeasEntry.plain "m"]]
  structured_event_processing_mode := StructuredEventProcessingMode.nested_attention
  TTE_generation_layer_type := TimeToEventGenerationHeadType.exponential
  vocab_size := 1

/-- C8 counterexample: a dependency-graph configuration in which the same
measurement appears in two declared levels is accepted without error
before any forward pass (the entry check of config.py:442-456 only
validates each entry's shape), and the model also builds — refuting the
claim that duplicate assignment raises a configuration error. -/
theorem claim_C8_counterexample :
    mkConfig argsC8 = Except.ok cfgC8
    ∧ mkOutputLayer cfgC8 (trivialHeads 1 cfgC8.vocab_size)
        = some ⟨cfgC8, trivialHeads 1 cfgC8.vocab_size, []⟩
    ∧ cfgC8.measurements_per_dep_graph_level
        = some [[], [MeasEntry.plain "m"], [MeasEntry.plain "m"]]
    ∧ MeasEntry.plain "m" ∈ (cfgC8.measurements_per_dep_graph_level.getD []).getD 1 []
    ∧ MeasEntry.plain "m" ∈ (cfgC8.measurements_per_dep_graph_level.getD []).getD 2 [] :=
  ⟨rfl, rfl, rfl, by simp [cfgC8], by simp [cfgC8]⟩

/-- C8 (amended): constructing a dependency-graph configuration never
inspects the *contents* of the declared partition (only its presence and
each entry's shape, the latter being guaranteed by typing here):
construction succeeds or fails identically for any two partitions, and
an accepted configuration stores the partition exactly as given —
duplicate assignment across levels is not rejected.  (In the forward
pass each level listing the measurement processes it, the later level
overwriting the earlier one in the output dictionaries, so each
measurement still appears at most once in the outputs, keyed by
`dict.update` semantics.) -/
theorem claim_C8_amended (a : ConfigArgs) (p p2 : List (List MeasEntry)) :
    validateConfigArgs { a with measurements_per_dep_graph_level := some p }
      = validateConfigArgs { a with measurements_per_dep_graph_level := some p2 }
    ∧ (mkConfig { a with measurements_per_dep_graph_level := some p }).isOk
      = (mkConfig { a with measurements_per_dep_graph_level := some p2 }).isOk
    ∧ (∀ c, mkConfig { a with measurements_per_dep_graph_level := some p }
          = Except.ok c → c.measurements_per_dep_graph_level = some p) := by
  refine ⟨rfl, ?_, ?_⟩
  · show (validateConfigArgs { a with measurements_per_dep_graph_level := some p }
      >>= fun v => pure _ : Except ConfigErr ModelConfig).isOk = _
    exact exceptBindPure_isOk
      (validateConfigArgs { a with measurements_per_dep_graph_level := some p }) _ _
  · intro c hc
    unfold mkConfig at hc
    cases hv : validateConfigArgs { a with measurements_per_dep_graph_level := some p } with
    | error e =>
      rw [hv] at hc
      cases hc
    | ok v =>
      rw [hv] at hc
      obtain rfl := (Except.ok.inj hc).symm
      rfl

theorem claim_C7_witness :
    cfgC7.vocab_offsets_by_measurement = argsC7.vocab_offsets_by_measurement.getD []
    ∧ (mkOutputLayer { cfgC7 with vocab_offsets_by_measurement := [] }
        (trivialHeads 1 cfgC7.vocab_size)).isSome
      = (mkOutputLayer cfgC7 (trivialHeads 1 cfgC7.vocab_size)).isSome :=
  ⟨(claim_C7_amended argsC7 none none).2.2.1 cfgC7 rfl,
   (claim_C7_amended argsC7 none none).2.2.2 1 cfgC7 (trivialHeads 1 cfgC7.vocab_size) []⟩

theorem claim_C8_witness :
    cfgC8.measurements_per_dep_graph_level
      = some [[], [MeasEntry.plain "m"], [MeasEntry.plain "m"]] :=
  (claim_C8_amended argsC8 [[], [MeasEntry.plain "m"], [MeasEntry.plain "m"]]
    []).2.2 cfgC8 rfl

/-- In the nested-attention mode, `forward` reduces to the
dependency-graph loop followed by the TTE computation on the final
whole-event slice. -/
theorem forward_nested_eq {B S K H : ℕ} (layer : OutputLayer H) (batch : Batch B S K)
    (L : ℕ) (e : Fin B → Fin S → Fin L → Fin H → Val) (is_generation : Bool)
    (hmode : layer.config.structured_event_processing_mode
      = StructuredEventProcessingMode.nested_attention) :
    forward layer batch (Encoded.nested L e) is_generation
      = if 0 < L then
          match get_TTE_outputs layer.heads batch (depSlice e (L - 1)) with
          | Except.error err => Except.error (ForwardErr.tte err)
          | Except.ok tte => Except.ok (assembleOutput batch is_generation
              ((depLoopIdx L).foldl
                (nestedStep layer batch
                  (get_event_type_mask_per_measurement layer.config batch) is_generation e)
                ⟨[], [], [], [], [], [], []⟩)
              (get_event_type_mask_per_measurement layer.config batch) tte)
        else Except.error ForwardErr.shape_mismatch := by
  unfold forward
  rw [hmode]

/-- A conditionally-independent model rejects a `[B,S,L,H]` encoder
output (the tensor-shape unpacking of model.py:463 fails). -/
theorem forward_ci_mismatch {B S K H : ℕ} (layer : OutputLayer H) (batch : Batch B S K)
    (L : ℕ) (e : Fin B → Fin S → Fin L → Fin H → Val) (is_generation : Bool)
    (hmode : layer.config.structured_event_processing_mode
      = StructuredEventProcessingMode.conditionally_independent) :
    forward layer batch (Encoded.nested L e) is_generation
      = Except.error ForwardErr.shape_mismatch := by
  unfold forward
  rw [hmode]

/-- A nested-attention model rejects a `[B,S,H]` encoder output (the
tensor-shape unpacking of model.py:500 fails). -/
theorem forward_nested_mismatch {B S K H : ℕ} (layer : OutputLayer H)
    (batch : Batch B S K) (e : Fin B → Fin S → Fin H → Val) (is_generation : Bool)
    (hmode : layer.config.structured_event_processing_mode
      = StructuredEventProcessingMode.nested_attention) :
    forward layer batch (Encoded.ci e) is_generation
      = Except.error ForwardErr.shape_mismatch := by
  unfold forward
  rw [hmode]

/-- Every successful `forward` call returns an output assembled by
`assembleOutput` from some accumulated head outputs, event-type masks and
TTE results. -/
theorem forward_ok_shape {B S K H : ℕ} (layer : OutputLayer H) (batch : Batch B S K)
    (encoded : Encoded B S H) (is_generation : Bool) (out : ModelOutput B S K H)
    (hok : forward layer batch encoded is_generation = Except.ok out) :
    ∃ acc etm tte, out = assembleOutput batch is_generation acc etm tte := by
  cases encoded with
  | ci e =>
    cases hm : layer.config.structured_event_processing_mode with
    | conditionally_independent =>
      rw [forward_ci_eq layer batch e is_generation hm] at hok
      cases htte : get_TTE_outputs layer.heads batch e with
      | error err =>
        rw [htte] at hok
        cases hok
      | ok tte =>
        rw [htte] at hok
        exact ⟨_, _, tte, ((Except.ok.inj hok).symm)⟩
    | nested_attention =>
      rw [forward_nested_mismatch layer batch e is_generation hm] at hok
      cases hok
  | nested L e =>
    cases hm : layer.config.structured_event_processing_mode with
    | conditionally_independent =>
      rw [forward_ci_mismatch layer batch L e is_generation hm] at hok
      cases hok
    | nested_attention =>
      rw [forward_nested_eq layer batch L e is_generation hm] at hok
      by_cases hL : 0 < L
      · rw [if_pos hL] at hok
        cases htte : get_TTE_outputs layer.heads batch (depSlice e (L - 1)) with
        | error err =>
          rw [htte] at hok
          cases hok
        | ok tte =>
          rw [htte] at hok
          exact ⟨_, _, tte, ((Except.ok.inj hok).symm)⟩
      · rw [if_neg hL] at hok
        cases hok

/-- C6: in non-generation mode the returned total scalar loss is the sum
of the per-measurement classification losses plus the sum of the
per-measurement regression losses minus the TTE log-likelihood (whose
negation is the returned time-to-event loss, i.e. the total adds the TTE
negative log-likelihood); in generation mode no total loss is returned. -/
theorem claim_C6 {B S K H : ℕ} (layer : OutputLayer H) (batch : Batch B S K)
    (encoded : Encoded B S H) (is_generation : Bool) (out : ModelOutput B S K H)
    (hok : forward layer batch encoded is_generation = Except.ok out) :
    (is_generation = true → out.loss = none)
    ∧ (is_generation = false →
        ∃ cls reg ll, out.losses_classification = some cls
          ∧ out.losses_regression = some reg
          ∧ out.losses_time_to_event = some (Val.neg ll)
          ∧ out.loss
            = some (((vsum (cls.map Prod.snd)).add (vsum (reg.map Prod.snd))).sub ll)) := by
  obtain ⟨acc, etm, tte, rfl⟩ := forward_ok_shape layer batch encoded is_generation out hok
  constructor
  · intro hg
    simp [assembleOutput, hg]
  · intro hg
    exact ⟨acc.clsLoss, acc.regLoss, tte.1, by simp [assembleOutput, hg],
      by simp [assembleOutput, hg], by simp [assembleOutput, hg],
      by simp [assembleOutput, hg]⟩

/-- The output `forward` produces on `batchC2` / `encC2` in generation
mode. -/
def outC2g : ModelOutput 1 2 1 1 where
  loss := none
  losses_classification := none
  losses_regression := none
  losses_time_to_event := none
  preds_classification := []
  preds_regression := []
  preds_regression_indices := none
  preds_time_to_event := ⟨encC2⟩
  labels_classification := none
  labels_regression := none
  labels_time_to_event := none
  event_type_mask_per_measurement := some []
  event_mask := batchC2.event_mask
  dynamic_values_mask := batchC2.dynamic_values_mask

theorem claim_C6_witness :
    outC2g.loss = none
    ∧ ∃ cls reg ll, outC2.losses_classification = some cls
        ∧ outC2.losses_regression = some reg
        ∧ outC2.losses_time_to_event = some (Val.neg ll)
        ∧ outC2.loss
          = some (((vsum (cls.map Prod.snd)).add (vsum (reg.map Prod.snd))).sub ll) :=
  ⟨(claim_C6 layerC2 batchC2 (Encoded.ci encC2) true outC2g rfl).1 rfl,
   (claim_C6 layerC2 batchC2 (Encoded.ci encC2) false outC2 rfl).2 rfl⟩

theorem lookupA_map_snd {α β : Type} (d : List (String × α)) (g : α → β) (m : String) :
    lookupA (d.map fun p => (p.1, g p.2)) m = (lookupA d m).map g := by
  induction d with
  | nil => rfl
  | cons p d ih =>
    simp only [List.map_cons]
    rw [lookupA_cons,
      show ((p :: d) : List (String × α)) = (p.1, p.2) :: d from rfl, lookupA_cons]
    by_cases hp : p.1 = m
    · rw [if_pos hp, if_pos hp]
      rfl
    · rw [if_neg hp, if_neg hp]
      exact ih

/-- C9 (amended, first half of the original claim): for every measurement
listed in `event_types_per_measurement`, the produced mask is `True` at
`(b,s)` iff some slot at that position carries the `event_type`
measurement index and its event-type id (global index minus the
event-type vocabulary offset) is among the measurement's applicable
event-type ids.  (Hypothesis: the sentinel `-1` used for non-event-type
slots is not itself an applicable id — applicable ids are vocabulary
indices, hence non-negative.)  The original claim's second half — an
unconditional all-`True` mask for unrestricted measurements — is false,
see the counterexample: an unrestricted measurement is listed with *all*
event types and its mask is still computed by the same slot scan, which
is `False` at positions carrying no event-type slot. -/
theorem claim_C9_amended {B S K : ℕ} (config : ModelConfig) (batch : Batch B S K)
    (d : List (String × List String)) (hd : config.event_types_per_measurement = some d)
    (m : String) (vs : List String) (hm : lookupA d m = some vs)
    (hsent : (-1 : ℤ) ∉ vs.map (fun et => lookupD config.event_types_idxmap et 0)) :
    ∃ masks, get_event_type_mask_per_measurement config batch = some masks
      ∧ ∃ mask, lookupA masks m = some mask
      ∧ ∀ (b : Fin B) (s : Fin S),
          mask b s = true
            ↔ ∃ k : Fin K,
                batch.dynamic_measurement_indices b s k
                  = lookupD config.measurements_idxmap "event_type" 0
                ∧ (batch.dynamic_indices b s k
                    - lookupD config.vocab_offsets_by_measurement "event_type" 0)
                  ∈ vs.map (fun et => lookupD config.event_types_idxmap et 0) := by
  unfold get_event_type_mask_per_measurement
  rw [hd]
  refine ⟨_, rfl, ?_⟩
  rw [lookupA_map_snd d (etMaskFor config batch) m, hm]
  refine ⟨_, rfl, ?_⟩
  intro b s
  unfold etMaskFor batch_event_type_indices
  constructor
  · intro htrue
    rw [List.any_eq_true] at htrue
    obtain ⟨i, hi, hk⟩ := htrue
    rw [List.any_eq_true] at hk
    obtain ⟨k, -, hk⟩ := hk
    by_cases het : batch.dynamic_measurement_indices b s k
        = lookupD config.measurements_idxmap "event_type" 0
    · refine ⟨k, het, ?_⟩
      rw [if_pos het] at hk
      exact (of_decide_eq_true hk) ▸ hi
    · exfalso
      rw [if_neg het] at hk
      have h1 : (-1 : ℤ) = i := of_decide_eq_true hk
      exact hsent (h1 ▸ hi)
  · intro hex
    obtain ⟨k, het, hid⟩ := hex
    rw [List.any_eq_true]
    refine ⟨_, hid, ?_⟩
    rw [List.any_eq_true]
    exact ⟨k, List.mem_finRange k, by rw [if_pos het]; exact decide_eq_true rfl⟩

/-- A configuration in which measurement `m` has *no* event-type
restriction: it is listed with all event types (here the single type
`A`), as `set_to_dataset` does for unrestricted measurements. -/
def cfgC9 : ModelConfig where
  vocab_sizes_by_measurement := [("event_type", 1)]
  vocab_offsets_by_measurement := [("event_type", 0)]
  measurements_idxmap := [("event_type", 1)]
  measurements_per_generative_mode := fun _ => []
  event_types_per_measurement := some [("m", ["A"])]
  event_types_idxmap := [("A", 0)]
  measurements_per_dep_graph_level := none
  structured_event_processing_mode := StructuredEventProcessingMode.conditionally_independent
  TTE_generation_layer_type := TimeToEventGenerationHeadType.exponential
  vocab_size := 1

/-- A batch whose single position carries no event-type slot (e.g. a
padding position: all slots have measurement index `0`, not the
`event_type` index `1`). -/
def batchC9 : Batch 1 1 1 where
  dynamic_indices := fun _ _ _ => 0
  dynamic_measurement_indices := fun _ _ _ => 0
  dynamic_values := fun _ _ _ => Val.fin 0
  dynamic_values_mask := fun _ _ _ => false
  event_mask := fun _ _ => false
  time := fun _ _ => Val.fin 0

/-- C9 counterexample: measurement `m` has no event-type restriction (its
applicable set is all event types), yet its mask is `False` at a
position with no event-type slot — not the all-`True` mask the claim
requires over all (batch, sequence) positions. -/
theorem claim_C9_counterexample :
    (lookupA ((get_event_type_mask_per_measurement cfgC9 batchC9).getD []) "m").isSome
        = true
    ∧ (lookupD ((get_event_type_mask_per_measurement cfgC9 batchC9).getD [])
        "m" (fun _ _ => true)) 0 0 = false := ⟨rfl, rfl⟩

theorem claim_C9_witness :
    ∃ masks, get_event_type_mask_per_measurement cfgC9 batchC9 = some masks
      ∧ ∃ mask, lookupA masks "m" = some mask
      ∧ ∀ (b : Fin 1) (s : Fin 1),
          mask b s = true
            ↔ ∃ k : Fin 1,
                batchC9.dynamic_measurement_indices b s k
                  = lookupD cfgC9.measurements_idxmap "event_type" 0
                ∧ (batchC9.dynamic_indices b s k
                    - lookupD cfgC9.vocab_offsets_by_measurement "event_type" 0)
                  ∈ (["A"] : List String).map (fun et => lookupD cfgC9.event_types_idxmap et 0) :=
  claim_C9_amended cfgC9 batchC9 [("m", ["A"])] rfl "m" ["A"] rfl (by decide)

/-! ## C5: the generation-mode contract of `forward` -/

theorem get_TTE_outputs_dist {B S K H V : ℕ} (heads : Heads H V) (batch : Batch B S K)
    (encoded : Fin B → Fin S → Fin H → Val)
    (tte : Val × TTEDist B S H × (Fin B → Fin (S - 1) → Val))
    (h : get_TTE_outputs heads batch encoded = Except.ok tte) :
    tte.2.1 = ⟨encoded⟩ := by
  unfold get_TTE_outputs at h
  split at h
  · cases h
  · split at h
    · cases h
    · split at h
      · cases h
      · obtain rfl := (Except.ok.inj h).symm
        rfl

/-- C5 (amended): for every successfully constructed layer whose
regression-measurement list has no duplicates, a `forward` call in
generation mode that returns (all its raise sites are the TTE
data-integrity checks and the tensor-shape unpacking — none involve
labels) returns `None` for the total loss and for every loss and label
dictionary; and in the conditionally-independent mode it returns a
classification distribution for every configured classification
measurement, a regression distribution for every configured regression
measurement, and the TTE distribution built from the raw encodings.  The
original claim's "distributions for every configured measurement" is
false in the nested-attention mode, where a configured measurement
listed in no dependency-graph level receives no distribution — see the
counterexample. -/
theorem claim_C5_amended {B S K H : ℕ} (config : ModelConfig)
    (heads : Heads H config.vocab_size) (layer : OutputLayer H)
    (hlayer : mkOutputLayer config heads = some layer)
    (hregnd : (config.measurements_per_generative_mode
        DataModality.multivariate_regression).Nodup)
    (batch : Batch B S K) (encoded : Encoded B S H) (out : ModelOutput B S K H)
    (hok : forward layer batch encoded true = Except.ok out) :
    (out.loss = none ∧ out.losses_classification = none
      ∧ out.losses_regression = none ∧ out.losses_time_to_event = none
      ∧ out.labels_classification = none ∧ out.labels_regression = none
      ∧ out.labels_time_to_event = none ∧ out.preds_regression_indices = none)
    ∧ (config.structured_event_processing_mode
          = StructuredEventProcessingMode.conditionally_independent →
        keysA out.preds_classification
            = keysA layer.classification_mode_per_measurement
        ∧ keysA out.preds_regression
            = config.measurements_per_generative_mode
                DataModality.multivariate_regression
        ∧ ∀ e, encoded = Encoded.ci e → out.preds_time_to_event = ⟨e⟩) := by
  unfold mkOutputLayer at hlayer
  cases hmk : mkClassificationModes config.measurements_per_generative_mode with
  | none => rw [hmk] at hlayer; cases hlayer
  | some modes =>
    rw [hmk] at hlayer
    obtain rfl := Option.some.inj hlayer
    obtain ⟨hr, hsl, hml, hdisj⟩ := mkClassificationModes_spec _ _ hmk
    have hnoreg : ∀ p ∈ modes, p.2 ≠ DataModality.multivariate_regression := by
      intro p hp
      rw [hr] at hp
      rcases List.mem_append.mp hp with hx | hx
      · obtain ⟨x, -, rfl⟩ := List.mem_map.mp hx
        simp
      · obtain ⟨x, -, rfl⟩ := List.mem_map.mp hx
        simp
    have hkeys : keysA modes
        = config.measurements_per_generative_mode
            DataModality.single_label_classification
          ++ config.measurements_per_generative_mode
            DataModality.multi_label_classification := by
      rw [hr, keysA_append, keysA_map_mode, keysA_map_mode]
    have hclsnd : (keysA modes).Nodup := by
      rw [hkeys]
      exact List.Nodup.append hsl hml fun a ha hb => hdisj a hb ha
    have hfil : modes.filter (clsPred (keysA modes)) = modes := by
      apply List.filter_eq_self.mpr
      intro p hp
      have hmem : p.1 ∈ keysA modes := List.mem_map_of_mem Prod.fst hp
      simp [clsPred, hmem, hnoreg p hp]
    constructor
    · obtain ⟨acc, etm, tte, rfl⟩ :=
        forward_ok_shape (⟨config, heads, modes⟩ : OutputLayer H) batch encoded true out hok
      simp [assembleOutput]
    · intro hmode
      cases encoded with
      | nested L e =>
        rw [forward_ci_mismatch (⟨config, heads, modes⟩ : OutputLayer H) batch L e true
          hmode] at hok
        cases hok
      | ci e =>
        rw [forward_ci_eq (⟨config, heads, modes⟩ : OutputLayer H) batch e true hmode] at hok
        cases htte : get_TTE_outputs
            (⟨config, heads, modes⟩ : OutputLayer H).heads batch e with
        | error err =>
          rw [htte] at hok
          cases hok
        | ok tte =>
          rw [htte] at hok
          obtain rfl := (Except.ok.inj hok).symm
          have hclsout := cls_outputs_keys (⟨config, heads, modes⟩ : OutputLayer H) batch
            (ciShift e)
            (keysA (⟨config, heads, modes⟩ :
              OutputLayer H).classification_mode_per_measurement)
            (get_event_type_mask_per_measurement
              (⟨config, heads, modes⟩ : OutputLayer H).config batch)
          have hclsnodup : (keysA (get_classification_outputs
              (⟨config, heads, modes⟩ : OutputLayer H) batch (ciShift e)
              (keysA (⟨config, heads, modes⟩ :
                OutputLayer H).classification_mode_per_measurement)
              (get_event_type_mask_per_measurement
                (⟨config, heads, modes⟩ : OutputLayer H).config batch)).2.1).Nodup := by
            rw [hclsout.2.1]
            exact List.Nodup.sublist (keysA_filter_sublist _ _) hclsnd
          have hregout := reg_outputs_keys (⟨config, heads, modes⟩ : OutputLayer H) batch
            (ciShift e)
            ((⟨config, heads, modes⟩ :
              OutputLayer H).config.measurements_per_generative_mode
                DataModality.multivariate_regression) true
            (get_event_type_mask_per_measurement
              (⟨config, heads, modes⟩ : OutputLayer H).config batch)
          have hregfil : (config.measurements_per_generative_mode
                DataModality.multivariate_regression).filter
              (fun m => decide (m ∈ config.measurements_per_generative_mode
                DataModality.multivariate_regression))
              = config.measurements_per_generative_mode
                  DataModality.multivariate_regression :=
            List.filter_eq_self.mpr fun m hm => decide_eq_true hm
          have hregnodup : (keysA (get_regression_outputs
              (⟨config, heads, modes⟩ : OutputLayer H) batch (ciShift e)
              ((⟨config, heads, modes⟩ :
                OutputLayer H).config.measurements_per_generative_mode
                  DataModality.multivariate_regression) true
              (get_event_type_mask_per_measurement
                (⟨config, heads, modes⟩ : OutputLayer H).config batch)).2.1).Nodup := by
            rw [hregout.1]
            exact List.Nodup.sublist (List.filter_sublist _) hregnd
          refine ⟨?_, ?_, ?_⟩
          · show keysA (dictUpdate [] _) = _
            rw [dictUpdate_nil _ hclsnodup, hclsout.2.1]
            show keysA (modes.filter (clsPred (keysA modes))) = keysA modes
            rw [hfil]
          · show keysA (dictUpdate [] _) = _
            rw [dictUpdate_nil _ hregnodup, hregout.1]
            exact hregfil
          · intro e' he'
            obtain rfl := Encoded.ci.inj he'
            show tte.2.1 = _
            exact get_TTE_outputs_dist _ batch e tte htte

/-- A nested-attention configuration whose classification measurement `m`
is listed in *no* dependency-graph level (the partition declares two
empty levels). -/
def cfgC5 : ModelConfig where
  vocab_sizes_by_measurement := [("m", 1)]
  vocab_offsets_by_measurement := [("m", 0)]
  measurements_idxmap := [("m", 1)]
  measurements_per_generative_mode := fun mode =>
    match mode with
    | DataModality.single_label_classification => ["m"]
    | DataModality.multi_label_classification => []
    | DataModality.multivariate_regression => []
  event_types_per_measurement := none
  event_types_idxmap := []
  measurements_per_dep_graph_level := some [[], []]
  structured_event_processing_mode := StructuredEventProcessingMode.nested_attention
  TTE_generation_layer_type := TimeToEventGenerationHeadType.exponential
  vocab_size := 1

/-- The corresponding constructed output layer. -/
def layerC5 : OutputLayer 1 :=
  ⟨cfgC5, trivialHeads 1 cfgC5.vocab_size,
    [("m", DataModality.single_label_classification)]⟩

/-- A concrete `[1,2,2,1]` dependency-graph encoding. -/
def encC5 : Fin 1 → Fin 2 → Fin 2 → Fin 1 → Val := fun _ _ _ _ => Val.fin 0

/-- The output `forward` produces on `batchC2` / `encC5` in generation
mode: no classification distribution at all, although `m` is
configured. -/
def outC5 : ModelOutput 1 2 1 1 where
  loss := none
  losses_classification := none
  losses_regression := none
  losses_time_to_event := none
  preds_classification := []
  preds_regression := []
  preds_regression_indices := none
  preds_time_to_event := ⟨depSlice encC5 1⟩
  labels_classification := none
  labels_regression := none
  labels_time_to_event := none
  event_type_mask_per_measurement := none
  event_mask := batchC2.event_mask
  dynamic_values_mask := batchC2.dynamic_values_mask

/-- C5 counterexample: in nested-attention mode a configured
classification measurement (`m`) listed in no dependency-graph level
gets *no* distribution — `forward` in generation mode succeeds yet its
classification predictions do not contain `m`, refuting "always returns
non-None distributions for every configured measurement". -/
theorem claim_C5_counterexample :
    mkOutputLayer cfgC5 (trivialHeads 1 cfgC5.vocab_size) = some layerC5
    ∧ "m" ∈ keysA layerC5.classification_mode_per_measurement
    ∧ forward layerC5 batchC2 (Encoded.nested 2 encC5) true = Except.ok outC5
    ∧ lookupA outC5.preds_classification "m" = none :=
  ⟨rfl, List.mem_singleton.mpr rfl, rfl, rfl⟩

theorem claim_C5_witness :
    (outC2g.loss = none ∧ outC2g.losses_classification = none
      ∧ outC2g.losses_regression = none ∧ outC2g.losses_time_to_event = none
      ∧ outC2g.labels_classification = none ∧ outC2g.labels_regression = none
      ∧ outC2g.labels_time_to_event = none ∧ outC2g.preds_regression_indices = none)
    ∧ (cfgC2.structured_event_processing_mode
          = StructuredEventProcessingMode.conditionally_independent →
        keysA outC2g.preds_classification
            = keysA layerC2.classification_mode_per_measurement
        ∧ keysA outC2g.preds_regression
            = cfgC2.measurements_per_generative_mode
                DataModality.multivariate_regression
        ∧ ∀ e, (Encoded.ci encC2 : Encoded 1 2 1) = Encoded.ci e →
            outC2g.preds_time_to_event = ⟨e⟩) :=
  claim_C5_amended cfgC2 (trivialHeads 1 cfgC2.vocab_size) layerC2 rfl
    List.nodup_nil batchC2 (Encoded.ci encC2) outC2g rfl

/-! ## C1: the nested-attention routing of `forward` -/

theorem lookupA_eq_none_of_not_mem {α : Type} (l : List (String × α)) (k : String)
    (h : k ∉ keysA l) : lookupA l k = none := by
  cases hl : lookupA l k with
  | none => rfl
  | some v => exact absurd (mem_keysA_of_lookupA l k v hl) h

theorem lookupA_isSome_of_mem {α : Type} (l : List (String × α)) (k : String)
    (h : k ∈ keysA l) : ∃ v, lookupA l k = some v := by
  induction l with
  | nil => cases h
  | cons p rest ih =>
    rw [show ((p :: rest) : List (String × α)) = (p.1, p.2) :: rest from rfl, lookupA_cons]
    by_cases hp : p.1 = k
    · exact ⟨p.2, by rw [if_pos hp]⟩
    · rw [if_neg hp]
      apply ih
      rcases List.mem_cons.mp h with h1 | h1
      · exact absurd h1.symm hp
      · exact h1

theorem mem_keysA_updateOne {α : Type} (d : List (String × α)) (k' : String) (v : α)
    (k : String) : k ∈ keysA (updateOne d k' v) ↔ k ∈ keysA d ∨ k = k' := by
  unfold updateOne
  by_cases hs : (lookupA d k').isSome
  · rw [if_pos hs]
    have hkeys : keysA (d.map fun q => if q.1 = k' then (k', v) else q) = keysA d := by
      unfold keysA
      rw [List.map_map]
      apply List.map_congr_left
      intro q hq
      by_cases h : q.1 = k' <;> simp [h, Function.comp_def]
    rw [hkeys]
    constructor
    · exact Or.inl
    · rintro (h | rfl)
      · exact h
      · obtain ⟨w, hw⟩ := Option.isSome_iff_exists.mp hs
        exact mem_keysA_of_lookupA d k w hw
  · rw [if_neg hs, keysA_append]
    simp [keysA]

theorem mem_keysA_dictUpdate {α : Type} (d new : List (String × α)) (k : String) :
    k ∈ keysA (dictUpdate d new) ↔ k ∈ keysA d ∨ k ∈ keysA new := by
  induction new generalizing d with
  | nil => simp [dictUpdate, keysA]
  | cons p rest ih =>
    show k ∈ keysA (dictUpdate (updateOne d p.1 p.2) rest) ↔ _
    rw [ih, mem_keysA_updateOne]
    show _ ↔ k ∈ keysA d ∨ k ∈ p.1 :: keysA rest
    rw [List.mem_cons]
    tauto

/-- Folding steps that each `dict.update` a component of the accumulator:
a key touched by no step keeps its binding. -/
theorem foldl_dictUpdate_lookup_none {α β ι : Type} (F : β → List (String × α))
    (step : β → ι → β) (new : ι → List (String × α))
    (hstep : ∀ acc i, F (step acc i) = dictUpdate (F acc) (new i))
    (is : List ι) (m : String)
    (hnone : ∀ i ∈ is, m ∉ keysA (new i)) (acc : β) :
    lookupA (F (is.foldl step acc)) m = lookupA (F acc) m := by
  induction is generalizing acc with
  | nil => rfl
  | cons j is ih =>
    rw [List.foldl_cons, ih (fun i hi => hnone i (List.mem_cons_of_mem _ hi)) (step acc j),
      hstep, lookupA_dictUpdate_of_none _ _ _
        (lookupA_eq_none_of_not_mem _ _ (hnone j (List.mem_cons_self _ _)))]

/-- Folding steps that each `dict.update` a component of the accumulator:
a key emitted by exactly one step ends up bound to that step's value. -/
theorem foldl_dictUpdate_lookup_unique {α β ι : Type} (F : β → List (String × α))
    (step : β → ι → β) (new : ι → List (String × α))
    (hstep : ∀ acc i, F (step acc i) = dictUpdate (F acc) (new i))
    (is : List ι) (m : String) (i : ι) (hi : i ∈ is) (hnodup : is.Nodup)
    (hnd : (keysA (new i)).Nodup) (hm : m ∈ keysA (new i))
    (huniq : ∀ i' ∈ is, i' ≠ i → m ∉ keysA (new i')) (acc : β) :
    lookupA (F (is.foldl step acc)) m = lookupA (new i) m := by
  induction is generalizing acc with
  | nil => cases hi
  | cons j is ih =>
    rw [List.foldl_cons]
    by_cases hj : j = i
    · subst hj
      have hrest : ∀ i' ∈ is, m ∉ keysA (new i') := by
        intro i' hi'
        refine huniq i' (List.mem_cons_of_mem _ hi') ?_
        intro he
        rw [he] at hi'
        exact (List.nodup_cons.mp hnodup).1 hi'
      obtain ⟨v, hv⟩ := lookupA_isSome_of_mem _ _ hm
      rw [foldl_dictUpdate_lookup_none F step new hstep is m hrest (step acc j),
        hstep, lookupA_dictUpdate_of_some _ _ _ _ hnd hv, hv]
    · have hi2 : i ∈ is := by
        rcases List.mem_cons.mp hi with h | h
        · exact absurd h.symm hj
        · exact h
      exact ih hi2 (List.nodup_cons.mp hnodup).2
        (fun i' hx hne => huniq i' (List.mem_cons_of_mem _ hx) hne) (step acc j)

/-- Folding steps that each `dict.update` a component of the accumulator:
the resulting keys are the initial keys together with every step's keys. -/
theorem foldl_dictUpdate_mem {α β ι : Type} (F : β → List (String × α))
    (step : β → ι → β) (new : ι → List (String × α))
    (hstep : ∀ acc i, F (step acc i) = dictUpdate (F acc) (new i))
    (is : List ι) (m : String) (acc : β) :
    m ∈ keysA (F (is.foldl step acc))
      ↔ m ∈ keysA (F acc) ∨ ∃ i ∈ is, m ∈ keysA (new i) := by
  induction is generalizing acc with
  | nil => simp
  | cons j is ih =>
    rw [List.foldl_cons, ih (step acc j), hstep acc j, mem_keysA_dictUpdate]
    simp only [List.mem_cons]
    constructor
    · rintro ((h | h) | h)
      · exact Or.inl h
      · exact Or.inr ⟨j, Or.inl rfl, h⟩
      · obtain ⟨i, hi, hm⟩ := h
        exact Or.inr ⟨i, Or.inr hi, hm⟩
    · rintro (h | ⟨i, rfl | hi, hm⟩)
      · exact Or.inl (Or.inl h)
      · exact Or.inl (Or.inr hm)
      · exact Or.inr ⟨i, hi, hm⟩

theorem mem_depLoopIdx {L : ℕ} (i : Fin L) : i ∈ depLoopIdx L ↔ 1 ≤ i.val := by
  unfold depLoopIdx
  rw [List.mem_filter]
  simp [List.mem_finRange]

theorem depLoopIdx_nodup (L : ℕ) : (depLoopIdx L).Nodup :=
  List.Nodup.filter _ (List.nodup_finRange L)

/-- C1: in the nested-attention mode, for every `[B,S,L,H]` encoded
tensor, (i) the last index along `L` is the whole-event summary: the TTE
distribution is built from `encoded[:, :, L-1, :]`, unshifted; (ii) it is
consumed *only* by the TTE head: any encoding agreeing on the explicit
levels `0..L-2` yields identical non-TTE outputs; (iii)/(iv) the explicit
levels are consumed unshifted, each by exactly the measurement subset
declared for it: a measurement has a classification (resp. regression)
prediction iff some loop level `i ∈ 1..L-1` emits it from slice `i-1`
with the subsets `levelMeasurementSets layer i` (partition entry `i` —
entry `0` being the reserved time-only level, entry `1` the first
declared dependency-graph level, paired with the first explicit slice
`0`) intersected with the classification/regression measurements, and a
measurement emitted by exactly one level is bound to exactly that level's
head output on slice `i-1`. -/
theorem claim_C1 {B S K H L : ℕ} (layer : OutputLayer H) (batch : Batch B S K)
    (e : Fin B → Fin S → Fin L → Fin H → Val) (is_generation : Bool)
    (out : ModelOutput B S K H)
    (hmode : layer.config.structured_event_processing_mode
      = StructuredEventProcessingMode.nested_attention)
    (hclsnd : (keysA layer.classification_mode_per_measurement).Nodup)
    (hregnd : (layer.config.measurements_per_generative_mode
        DataModality.multivariate_regression).Nodup)
    (hok : forward layer batch (Encoded.nested L e) is_generation = Except.ok out) :
    out.preds_time_to_event = ⟨depSlice e (L - 1)⟩
    ∧ (∀ e' : Fin B → Fin S → Fin L → Fin H → Val,
        (∀ (b : Fin B) (s : Fin S) (i : Fin L) (h : Fin H), i.val < L - 1 →
          e' b s i h = e b s i h) →
        ∀ out' : ModelOutput B S K H,
          forward layer batch (Encoded.nested L e') is_generation = Except.ok out' →
          out'.preds_classification = out.preds_classification
          ∧ out'.preds_regression = out.preds_regression
          ∧ out'.losses_classification = out.losses_classification
          ∧ out'.losses_regression = out.losses_regression
          ∧ out'.labels_classification = out.labels_classification
          ∧ out'.labels_regression = out.labels_regression
          ∧ out'.preds_regression_indices = out.preds_regression_indices)
    ∧ (∀ m : String,
        (m ∈ keysA out.preds_classification
          ↔ ∃ i : Fin L, 1 ≤ i.val
              ∧ m ∈ keysA (get_classification_outputs layer batch
                  (depSlice e (i.val - 1)) (levelMeasurementSets layer i.val).1
                  (get_event_type_mask_per_measurement layer.config batch)).2.1)
        ∧ (m ∈ keysA out.preds_regression
          ↔ ∃ i : Fin L, 1 ≤ i.val
              ∧ m ∈ keysA (get_regression_outputs layer batch
                  (depSlice e (i.val - 1)) (levelMeasurementSets layer i.val).2
                  is_generation
                  (get_event_type_mask_per_measurement layer.config batch)).2.1))
    ∧ (∀ (i : Fin L) (m : String), 1 ≤ i.val →
        m ∈ keysA (get_classification_outputs layer batch (depSlice e (i.val - 1))
            (levelMeasurementSets layer i.val).1
            (get_event_type_mask_per_measurement layer.config batch)).2.1 →
        (∀ i' : Fin L, 1 ≤ i'.val → i' ≠ i →
          m ∉ keysA (get_classification_outputs layer batch (depSlice e (i'.val - 1))
              (levelMeasurementSets layer i'.val).1
              (get_event_type_mask_per_measurement layer.config batch)).2.1) →
        lookupA out.preds_classification m
          = lookupA (get_classification_outputs layer batch (depSlice e (i.val - 1))
              (levelMeasurementSets layer i.val).1
              (get_event_type_mask_per_measurement layer.config batch)).2.1 m)
    ∧ (∀ (i : Fin L) (m : String), 1 ≤ i.val →
        m ∈ keysA (get_regression_outputs layer batch (depSlice e (i.val - 1))
            (levelMeasurementSets layer i.val).2 is_generation
            (get_event_type_mask_per_measurement layer.config batch)).2.1 →
        (∀ i' : Fin L, 1 ≤ i'.val → i' ≠ i →
          m ∉ keysA (get_regression_outputs layer batch (depSlice e (i'.val - 1))
              (levelMeasurementSets layer i'.val).2 is_generation
              (get_event_type_mask_per_measurement layer.config batch)).2.1) →
        lookupA out.preds_regression m
          = lookupA (get_regression_outputs layer batch (depSlice e (i.val - 1))
              (levelMeasurementSets layer i.val).2 is_generation
              (get_event_type_mask_per_measurement layer.config batch)).2.1 m) := by
  rw [forward_nested_eq layer batch L e is_generation hmode] at hok
  by_cases hL : 0 < L
  · rw [if_pos hL] at hok
    cases htte : get_TTE_outputs layer.heads batch (depSlice e (L - 1)) with
    | error err =>
      rw [htte] at hok
      cases hok
    | ok tte =>
      rw [htte] at hok
      obtain rfl := (Except.ok.inj hok).symm
      refine ⟨get_TTE_outputs_dist _ batch _ tte htte, ?_, ?_, ?_, ?_⟩
      · intro e' hagree out' hok'
        rw [forward_nested_eq layer batch L e' is_generation hmode, if_pos hL] at hok'
        cases htte' : get_TTE_outputs layer.heads batch (depSlice e' (L - 1)) with
        | error err =>
          rw [htte'] at hok'
          cases hok'
        | ok tte' =>
          rw [htte'] at hok'
          obtain rfl := (Except.ok.inj hok').symm
          have hencs : ∀ i ∈ depLoopIdx L, depSlice e' (i.val - 1) = depSlice e (i.val - 1) := by
            intro i hi
            have h1 : 1 ≤ i.val := (mem_depLoopIdx i).mp hi
            funext b s h
            unfold depSlice
            have hlt : i.val - 1 < L := by have := i.isLt; omega
            rw [dif_pos hlt, dif_pos hlt]
            exact hagree b s ⟨i.val - 1, hlt⟩ h
              (by show i.val - 1 < L - 1; have := i.isLt; omega)
          have haccs : (depLoopIdx L).foldl (nestedStep layer batch
                (get_event_type_mask_per_measurement layer.config batch) is_generation e')
                ⟨[], [], [], [], [], [], []⟩
              = (depLoopIdx L).foldl (nestedStep layer batch
                (get_event_type_mask_per_measurement layer.config batch) is_generation e)
                ⟨[], [], [], [], [], [], []⟩ := by
            apply List.foldl_ext
            intro acc i hi
            unfold nestedStep
            rw [hencs i hi]
          rw [haccs]
          exact ⟨rfl, rfl, rfl, rfl, rfl, rfl, rfl⟩
      · intro m
        constructor
        · exact (foldl_dictUpdate_mem HeadAcc.clsDist
            (nestedStep layer batch
              (get_event_type_mask_per_measurement layer.config batch) is_generation e)
            (fun i => (get_classification_outputs layer batch (depSlice e (i.val - 1))
              (levelMeasurementSets layer i.val).1
              (get_event_type_mask_per_measurement layer.config batch)).2.1)
            (fun _ _ => rfl) (depLoopIdx L) m ⟨[], [], [], [], [], [], []⟩).trans
            (by simp [keysA, mem_depLoopIdx])
        · exact (foldl_dictUpdate_mem HeadAcc.regDist
            (nestedStep layer batch
              (get_event_type_mask_per_measurement layer.config batch) is_generation e)
            (fun i => (get_regression_outputs layer batch (depSlice e (i.val - 1))
              (levelMeasurementSets layer i.val).2 is_generation
              (get_event_type_mask_per_measurement layer.config batch)).2.1)
            (fun _ _ => rfl) (depLoopIdx L) m ⟨[], [], [], [], [], [], []⟩).trans
            (by simp [keysA, mem_depLoopIdx])
      · intro i m h1 hm huniq
        have hnd : (keysA (get_classification_outputs layer batch (depSlice e (i.val - 1))
            (levelMeasurementSets layer i.val).1
            (get_event_type_mask_per_measurement layer.config batch)).2.1).Nodup := by
          rw [(cls_outputs_keys layer batch _ _ _).2.1]
          exact List.Nodup.sublist (keysA_filter_sublist _ _) hclsnd
        exact foldl_dictUpdate_lookup_unique HeadAcc.clsDist
          (nestedStep layer batch
            (get_event_type_mask_per_measurement layer.config batch) is_generation e)
          (fun i => (get_classification_outputs layer batch (depSlice e (i.val - 1))
            (levelMeasurementSets layer i.val).1
            (get_event_type_mask_per_measurement layer.config batch)).2.1)
          (fun _ _ => rfl) (depLoopIdx L) m i ((mem_depLoopIdx i).mpr h1)
          (depLoopIdx_nodup L) hnd hm
          (fun i' hi' => huniq i' ((mem_depLoopIdx i').mp hi'))
          ⟨[], [], [], [], [], [], []⟩
      · intro i m h1 hm huniq
        have hnd : (keysA (get_regression_outputs layer batch (depSlice e (i.val - 1))
            (levelMeasurementSets layer i.val).2 is_generation
            (get_event_type_mask_per_measurement layer.config batch)).2.1).Nodup := by
          rw [(reg_outputs_keys layer batch _ _ _ _).1]
          exact List.Nodup.sublist (List.filter_sublist _) hregnd
        exact foldl_dictUpdate_lookup_unique HeadAcc.regDist
          (nestedStep layer batch
            (get_event_type_mask_per_measurement layer.config batch) is_generation e)
          (fun i => (get_regression_outputs layer batch (depSlice e (i.val - 1))
            (levelMeasurementSets layer i.val).2 is_generation
            (get_event_type_mask_per_measurement layer.config batch)).2.1)
          (fun _ _ => rfl) (depLoopIdx L) m i ((mem_depLoopIdx i).mpr h1)
          (depLoopIdx_nodup L) hnd hm
          (fun i' hi' => huniq i' ((mem_depLoopIdx i').mp hi'))
          ⟨[], [], [], [], [], [], []⟩
  · rw [if_neg hL] at hok
    cases hok

theorem claim_C1_witness :
    outC5.preds_time_to_event = ⟨depSlice encC5 1⟩
    ∧ ("m" ∈ keysA outC5.preds_classification
        ↔ ∃ i : Fin 2, 1 ≤ i.val
            ∧ "m" ∈ keysA (get_classification_outputs layerC5 batchC2
                (depSlice encC5 (i.val - 1)) (levelMeasurementSets layerC5 i.val).1
                (get_event_type_mask_per_measurement layerC5.config batchC2)).2.1) :=
  have h := claim_C1 layerC5 batchC2 encC5 true outC5 rfl
    (by simp [layerC5, keysA]) List.nodup_nil rfl
  ⟨h.1, (h.2.2.1 "m").1⟩
